import Mathlib

/-!
# data-receiver: the request pipeline and its plugins

A shallow embedding of the Go packages `extractor`, `authenticator`, `writer` and
`webserver` of data-receiver, and theorems about them.

Conventions of the embedding.

* A Go `string` is a Lean `String` and a Go `[]byte` is a `List Nat` (`Bytes`), one entry
  per byte; `bytesOf` and `stringOf` are the conversions `[]byte(s)` and `string(b)`, which
  read a character as the byte with the same code.
* A Go `map[string]T` is a `GoMap T`: a list of entries with distinct keys.  A `range` loop
  visits the entries in list order, which stands for the unspecified order Go picks; the
  theorems hold for every map, hence for every order.  A nil map reads as the empty map.
* A Go `error` is `Option GoError`, `none` being `nil`; a constructor returning
  `(T, error)` is an `Except GoError T`.
* An interface is an inductive type with one constructor per implementation of the
  repository and one more, `other`, for an implementation from elsewhere, taken to be a
  function of its arguments (and, for a writer, of its own state) that returns.  A field
  of interface type is an `Option`, `none` being the nil interface value.
* Writers are objects with state that are shared by pointer: a `Heap` maps addresses to
  writer objects and a `service` holds the address of its writer.
* A call that does not return, because the Go runtime raises a run-time error or because
  the goroutine waits forever on a channel, has the `Outcome` `panics` or `blocks`.
* Logging (`log.Info`, `slog.Error`) is not part of the state: nothing reads the log back.
-/

namespace DataReceiver

/-! ## Go values -/

/-- Byte slices, `[]byte`: one natural number per byte. -/
abbrev Bytes := List Nat

/-- The conversion `[]byte(s)`. -/
def bytesOf (s : String) : Bytes := s.toList.map (fun c => c.toNat % 256)

/-- The conversion `string(b)`. -/
def stringOf (b : Bytes) : String := String.mk (b.map (fun n => Char.ofNat (n % 256)))

/-- An error value as `errors.New` and `fmt.Errorf` build it: the format string and the
arguments that fill its verbs.  Its message is the format with the arguments put in. -/
structure GoError where
  format : String
  args : List String
deriving DecidableEq, Repr

/-- The function `errors.New(text)`. -/
def errorsNew (text : String) : GoError := ⟨text, []⟩

/-- The function `fmt.Errorf(format, args...)`. -/
def fmtErrorf (format : String) (args : List String) : GoError := ⟨format, args⟩

/-- How a call ends: it returns a value, the runtime raises a run-time error, or the
caller waits forever. -/
inductive Outcome (α : Type) where
  | returns (a : α)
  | panics (reason : String)
  | blocks
deriving DecidableEq, Repr

/-- A Go map with string keys: entries with distinct keys. -/
structure GoMap (β : Type) where
  entries : List (String × β)
  nodup : (entries.map Prod.fst).Nodup

namespace GoMap

variable {β : Type}

/-- The empty map, `make(map[string]T)`; a nil map reads the same. -/
def empty : GoMap β := ⟨[], List.nodup_nil⟩

/-- The builtin `len(m)`. -/
def len (m : GoMap β) : Nat := m.entries.length

/-- The keys of the map, in range order. -/
def keys (m : GoMap β) : List String := m.entries.map Prod.fst

/-- The lookup `v, ok := m[k]`: `none` when `ok` is false. -/
def get? (m : GoMap β) (k : String) : Option β := m.entries.lookup k

/-- The assignment `m[k] = v`. -/
def set (m : GoMap β) (k : String) (v : β) : GoMap β :=
  ⟨(k, v) :: m.entries.filter (fun e => e.1 ≠ k), by
    have hsub : ((m.entries.filter (fun e => e.1 ≠ k)).map Prod.fst).Sublist
        (m.entries.map Prod.fst) := (List.filter_sublist _).map _
    simp only [List.map_cons, List.nodup_cons]
    refine ⟨?_, m.nodup.sublist hsub⟩
    simp [List.mem_map, List.mem_filter]⟩

/-- A map literal `map[string]T{k1: v1, ...}`. -/
def ofList : List (String × β) → GoMap β
  | [] => empty
  | (k, v) :: rest => (ofList rest).set k v

end GoMap

/-- The index expression `m[k]` on a `map[string]string`: the empty string when the key is
absent. -/
def GoMap.index (m : GoMap String) (k : String) : String := (m.get? k).getD ""

/-! ## The request (`gin.Context`) -/

/-- What the handler reads from a `gin.Context`: the path parameters, the request headers,
the query parameters of the URL, and what reading the body gives. -/
structure Context where
  params : String → Option String
  headers : String → Option String
  query : String → Option String
  body : Except GoError Bytes

namespace Context

/-- The method `c.Param(key)`: the path parameter, or the empty string. -/
def Param (c : Context) (key : String) : String := (c.params key).getD ""

/-- The method `c.GetHeader(key)`: the header, or the empty string when the request has
none of that name. -/
def GetHeader (c : Context) (key : String) : String := (c.headers key).getD ""

/-- The method `c.Query(key)`: the query parameter, or the empty string when the URL has
none of that name. -/
def Query (c : Context) (key : String) : String := (c.query key).getD ""

/-- The method `c.GetRawData()`. -/
def GetRawData (c : Context) : Except GoError Bytes := c.body

end Context

/-! ## Package `extractor` -/

/-- The type `EmptyExtractor`: an empty struct. -/
structure EmptyExtractor where
deriving DecidableEq, Repr

/-- The function `NewEmptyExtractor`. -/
def NewEmptyExtractor (_c : GoMap String) : Except GoError EmptyExtractor := .ok {}

/-- The method `EmptyExtractor.Extract`: an empty map. -/
def EmptyExtractor.Extract (_e : EmptyExtractor) (_c : Context) : GoMap String := GoMap.empty

/-- The method `EmptyExtractor.Validate`: always nil. -/
def EmptyExtractor.Validate (_e : EmptyExtractor) (_m : GoMap String) : Option GoError := none

/-- The loop of both `Validate` methods: the first entry met whose value is the empty
string is reported. -/
def validateRange : List (String × String) → Option GoError
  | [] => none
  | (k, v) :: rest => if v = "" then some (fmtErrorf "'%s' is empty" [k]) else validateRange rest

/-- The loop of both `Extract` methods: `m[key] = get(value)` for every entry of the
configuration. -/
def extractRange (get : String → String) : List (String × String) → GoMap String → GoMap String
  | [], m => m
  | (key, value) :: rest, m => extractRange get rest (m.set key (get value))

/-- The type `HeaderExtractor`: output key to header name. -/
structure HeaderExtractor where
  config : GoMap String

/-- The function `NewHeaderExtractor`. -/
def NewHeaderExtractor (c : GoMap String) : Except GoError HeaderExtractor :=
  if c.len = 0 then .error (errorsNew "No parameters received.")
  else .ok { config := c }

/-- The method `HeaderExtractor.Extract`. -/
def HeaderExtractor.Extract (h : HeaderExtractor) (c : Context) : GoMap String :=
  extractRange c.GetHeader h.config.entries GoMap.empty

/-- The method `HeaderExtractor.Validate`. -/
def HeaderExtractor.Validate (_h : HeaderExtractor) (m : GoMap String) : Option GoError :=
  validateRange m.entries

/-- The type `QueryExtractor`: output key to query parameter name. -/
structure QueryExtractor where
  config : GoMap String

/-- The function `NewQueryExtractor`. -/
def NewQueryExtractor (c : GoMap String) : Except GoError QueryExtractor :=
  if c.len = 0 then .error (errorsNew "No parameters received.")
  else .ok { config := c }

/-- The method `QueryExtractor.Extract`. -/
def QueryExtractor.Extract (q : QueryExtractor) (c : Context) : GoMap String :=
  extractRange c.Query q.config.entries GoMap.empty

/-- The method `QueryExtractor.Validate`. -/
def QueryExtractor.Validate (_q : QueryExtractor) (m : GoMap String) : Option GoError :=
  validateRange m.entries

/-- The interface `Extractor`: the three implementations of the package and any other. -/
inductive Extractor where
  | empty (e : EmptyExtractor)
  | header (h : HeaderExtractor)
  | query (q : QueryExtractor)
  | other (Extract : Context → GoMap String) (Validate : GoMap String → Option GoError)

/-- The interface method `Extract`. -/
def Extractor.Extract : Extractor → Context → GoMap String
  | .empty e, c => e.Extract c
  | .header h, c => h.Extract c
  | .query q, c => q.Extract c
  | .other ex _, c => ex c

/-- The interface method `Validate`. -/
def Extractor.Validate : Extractor → GoMap String → Option GoError
  | .empty e, m => e.Validate m
  | .header h, m => h.Validate m
  | .query q, m => q.Validate m
  | .other _ va, m => va m

/-- The function `CreateExtractor`: the switch on the class name. -/
def CreateExtractor (cls : String) (params : GoMap String) : Except GoError Extractor :=
  if cls = "HeaderExtractor" then (NewHeaderExtractor params).map Extractor.header
  else if cls = "QueryExtractor" then (NewQueryExtractor params).map Extractor.query
  else (NewEmptyExtractor params).map Extractor.empty

/-! ## The Go standard library behind package `authenticator`

`crypto/sha1` and `crypto/sha256` (FIPS 180-4), `crypto/hmac` (RFC 2104), `encoding/hex`
and `encoding/base64` (RFC 4648).  Words are natural numbers below `2^32`. -/

/-- Addition of 32-bit words. -/
def add32 (a b : Nat) : Nat := (a + b) % 4294967296

/-- Rotation of a 32-bit word to the left. -/
def rotl32 (x n : Nat) : Nat := ((x <<< n) ||| (x >>> (32 - n))) % 4294967296

/-- Rotation of a 32-bit word to the right. -/
def rotr32 (x n : Nat) : Nat := ((x >>> n) ||| (x <<< (32 - n))) % 4294967296

/-- Complement of a 32-bit word. -/
def not32 (x : Nat) : Nat := x ^^^ 4294967295

/-- The `k` low bytes of `n`, most significant first. -/
def beBytes : Nat → Nat → Bytes
  | 0, _ => []
  | k + 1, n => (n >>> (8 * k)) % 256 :: beBytes k n

/-- The number a byte sequence spells, most significant byte first. -/
def beWord : Bytes → Nat
  | [] => 0
  | b :: bs => (b % 256) <<< (8 * bs.length) ||| beWord bs

/-- The padding of SHA-1 and SHA-256: a one bit, zeros up to 56 modulo 64 bytes, and the
length in bits on 8 bytes. -/
def mdPad (msg : Bytes) : Bytes :=
  msg ++ 128 :: List.replicate ((119 - msg.length % 64) % 64) 0 ++ beBytes 8 (8 * msg.length)

/-- Cuts a byte sequence in pieces of `n` bytes; `fuel` bounds the number of pieces. -/
def splitEvery (n : Nat) : Nat → Bytes → List Bytes
  | 0, _ => []
  | fuel + 1, bs => if bs.isEmpty then [] else bs.take n :: splitEvery n fuel (bs.drop n)

/-- The 64-byte blocks of a padded message. -/
def blocksOf (bs : Bytes) : List Bytes := splitEvery 64 bs.length bs

/-- The sixteen words of a block. -/
def wordsOf (block : Bytes) : List Nat := (splitEvery 4 16 block).map beWord

/-- The SHA-1 message schedule; `win` holds the last sixteen words, newest first. -/
def sha1Schedule : Nat → List Nat → List Nat
  | 0, _ => []
  | k + 1, win =>
    let w := rotl32 (win.getD 2 0 ^^^ win.getD 7 0 ^^^ win.getD 13 0 ^^^ win.getD 15 0) 1
    w :: sha1Schedule k (w :: win.take 15)

/-- The five working variables of SHA-1. -/
structure Sha1State where
  a : Nat
  b : Nat
  c : Nat
  d : Nat
  e : Nat

/-- One of the eighty rounds of SHA-1, on round number `iw.1` and schedule word `iw.2`. -/
def sha1Round (s : Sha1State) (iw : Nat × Nat) : Sha1State :=
  let i := iw.1
  let fk : Nat × Nat :=
    if i < 20 then ((s.b &&& s.c) ||| (not32 s.b &&& s.d), 0x5A827999)
    else if i < 40 then (s.b ^^^ s.c ^^^ s.d, 0x6ED9EBA1)
    else if i < 60 then ((s.b &&& s.c) ||| (s.b &&& s.d) ||| (s.c &&& s.d), 0x8F1BBCDC)
    else (s.b ^^^ s.c ^^^ s.d, 0xCA62C1D6)
  let t := add32 (add32 (add32 (add32 (rotl32 s.a 5) fk.1) s.e) fk.2) iw.2
  ⟨t, s.a, rotl32 s.b 30, s.c, s.d⟩

/-- The SHA-1 compression of one block into the chaining value. -/
def sha1Block (h : Sha1State) (block : Bytes) : Sha1State :=
  let w16 := wordsOf block
  let w := w16 ++ sha1Schedule 64 w16.reverse
  let s := ((List.range 80).zip w).foldl sha1Round h
  ⟨add32 h.a s.a, add32 h.b s.b, add32 h.c s.c, add32 h.d s.d, add32 h.e s.e⟩

/-- The SHA-1 digest of a message: 20 bytes. -/
def sha1Sum (msg : Bytes) : Bytes :=
  let h := (blocksOf (mdPad msg)).foldl sha1Block
    ⟨0x67452301, 0xEFCDAB89, 0x98BADCFE, 0x10325476, 0xC3D2E1F0⟩
  beBytes 4 h.a ++ beBytes 4 h.b ++ beBytes 4 h.c ++ beBytes 4 h.d ++ beBytes 4 h.e

/-- The round constants of SHA-256. -/
def sha256K : List Nat := [
  0x428a2f98, 0x71374491, 0xb5c0fbcf, 0xe9b5dba5, 0x3956c25b, 0x59f111f1, 0x923f82a4, 0xab1c5ed5,
  0xd807aa98, 0x12835b01, 0x243185be, 0x550c7dc3, 0x72be5d74, 0x80deb1fe, 0x9bdc06a7, 0xc19bf174,
  0xe49b69c1, 0xefbe4786, 0x0fc19dc6, 0x240ca1cc, 0x2de92c6f, 0x4a7484aa, 0x5cb0a9dc, 0x76f988da,
  0x983e5152, 0xa831c66d, 0xb00327c8, 0xbf597fc7, 0xc6e00bf3, 0xd5a79147, 0x06ca6351, 0x14292967,
  0x27b70a85, 0x2e1b2138, 0x4d2c6dfc, 0x53380d13, 0x650a7354, 0x766a0abb, 0x81c2c92e, 0x92722c85,
  0xa2bfe8a1, 0xa81a664b, 0xc24b8b70, 0xc76c51a3, 0xd192e819, 0xd6990624, 0xf40e3585, 0x106aa070,
  0x19a4c116, 0x1e376c08, 0x2748774c, 0x34b0bcb5, 0x391c0cb3, 0x4ed8aa4a, 0x5b9cca4f, 0x682e6ff3,
  0x748f82ee, 0x78a5636f, 0x84c87814, 0x8cc70208, 0x90befffa, 0xa4506ceb, 0xbef9a3f7, 0xc67178f2]

/-- The SHA-256 message schedule; `win` holds the last sixteen words, newest first. -/
def sha256Schedule : Nat → List Nat → List Nat
  | 0, _ => []
  | k + 1, win =>
    let w15 := win.getD 14 0
    let w2 := win.getD 1 0
    let s0 := rotr32 w15 7 ^^^ rotr32 w15 18 ^^^ (w15 >>> 3)
    let s1 := rotr32 w2 17 ^^^ rotr32 w2 19 ^^^ (w2 >>> 10)
    let w := add32 (add32 (add32 (win.getD 15 0) s0) (win.getD 6 0)) s1
    w :: sha256Schedule k (w :: win.take 15)

/-- The eight working variables of SHA-256. -/
structure Sha256State where
  a : Nat
  b : Nat
  c : Nat
  d : Nat
  e : Nat
  f : Nat
  g : Nat
  h : Nat

/-- One of the sixty-four rounds of SHA-256, on constant `kw.1` and schedule word `kw.2`. -/
def sha256Round (s : Sha256State) (kw : Nat × Nat) : Sha256State :=
  let s1 := rotr32 s.e 6 ^^^ rotr32 s.e 11 ^^^ rotr32 s.e 25
  let ch := (s.e &&& s.f) ^^^ (not32 s.e &&& s.g)
  let t1 := add32 (add32 (add32 (add32 s.h s1) ch) kw.1) kw.2
  let s0 := rotr32 s.a 2 ^^^ rotr32 s.a 13 ^^^ rotr32 s.a 22
  let maj := (s.a &&& s.b) ^^^ (s.a &&& s.c) ^^^ (s.b &&& s.c)
  let t2 := add32 s0 maj
  ⟨add32 t1 t2, s.a, s.b, s.c, add32 s.d t1, s.e, s.f, s.g⟩

/-- The SHA-256 compression of one block into the chaining value. -/
def sha256Block (h : Sha256State) (block : Bytes) : Sha256State :=
  let w16 := wordsOf block
  let w := w16 ++ sha256Schedule 48 w16.reverse
  let s := (sha256K.zip w).foldl sha256Round h
  ⟨add32 h.a s.a, add32 h.b s.b, add32 h.c s.c, add32 h.d s.d,
   add32 h.e s.e, add32 h.f s.f, add32 h.g s.g, add32 h.h s.h⟩

/-- The SHA-256 digest of a message: 32 bytes. -/
def sha256Sum (msg : Bytes) : Bytes :=
  let h := (blocksOf (mdPad msg)).foldl sha256Block
    ⟨0x6a09e667, 0xbb67ae85, 0x3c6ef372, 0xa54ff53a, 0x510e527f, 0x9b05688c, 0x1f83d9ab, 0x5be0cd19⟩
  beBytes 4 h.a ++ beBytes 4 h.b ++ beBytes 4 h.c ++ beBytes 4 h.d ++
  beBytes 4 h.e ++ beBytes 4 h.f ++ beBytes 4 h.g ++ beBytes 4 h.h

/-- A constructor of type `func() hash.Hash`, by what `hmac.New` uses of the hash it
returns: the block size and the digest of the bytes written. -/
structure HashFunc where
  BlockSize : Nat
  Sum : Bytes → Bytes

/-- The constructor `sha1.New`. -/
def sha1.New : HashFunc := ⟨64, sha1Sum⟩

/-- The constructor `sha256.New`. -/
def sha256.New : HashFunc := ⟨64, sha256Sum⟩

/-- The keyed-hash message authentication code of RFC 2104:
`H((K xor opad) ++ H((K xor ipad) ++ text))`, where `K` is the key filled with zeros to the
block size, after hashing it when it is longer than a block. -/
def hmacRFC2104 (h : HashFunc) (key text : Bytes) : Bytes :=
  let k0 := if key.length > h.BlockSize then h.Sum key else key
  let k := k0 ++ List.replicate (h.BlockSize - k0.length) 0
  h.Sum (k.map (fun b => b ^^^ 0x5c) ++ h.Sum (k.map (fun b => b ^^^ 0x36) ++ text))

/-- The `hash.Hash` that `hmac.New` returns: the hash, the key and the bytes written. -/
structure HMAC where
  h : HashFunc
  key : Bytes
  written : Bytes

/-- The function `hmac.New(h, key)`. -/
def hmac.New (h : HashFunc) (key : Bytes) : HMAC := ⟨h, key, []⟩

/-- The method `Write` of an HMAC: more text. -/
def HMAC.Write (mac : HMAC) (p : Bytes) : HMAC := { mac with written := mac.written ++ p }

/-- The method `Sum(b)` of an HMAC: `b` followed by the code of the text written. -/
def HMAC.Sum (mac : HMAC) (b : Bytes) : Bytes := b ++ hmacRFC2104 mac.h mac.key mac.written

/-- A digit of `hex.EncodeToString`: lower case. -/
def hexDigit (n : Nat) : Char := "0123456789abcdef".toList.getD n '0'

/-- The function `hex.EncodeToString`. -/
def hex.EncodeToString (src : Bytes) : String :=
  String.mk (src.flatMap (fun b => [hexDigit (b % 256 / 16), hexDigit (b % 16)]))

/-- A digit of the URL alphabet of base64. -/
def b64Char (n : Nat) : Char :=
  "ABCDEFGHIJKLMNOPQRSTUVWXYZabcdefghijklmnopqrstuvwxyz0123456789-_".toList.getD n 'A'

/-- Base64 with the URL alphabet, three bytes to four digits, with or without the `=`
that fills the last group. -/
def b64Encode (padding : Bool) : Bytes → List Char
  | [] => []
  | [a] => [b64Char (a % 256 / 4), b64Char (a % 4 * 16)] ++ (if padding then ['=', '='] else [])
  | [a, b] =>
    [b64Char (a % 256 / 4), b64Char (a % 4 * 16 + b % 256 / 16), b64Char (b % 16 * 4)] ++
      (if padding then ['='] else [])
  | a :: b :: c :: rest =>
    b64Char (a % 256 / 4) :: b64Char (a % 4 * 16 + b % 256 / 16) ::
      b64Char (b % 16 * 4 + c % 256 / 64) :: b64Char (c % 64) :: b64Encode padding rest

/-- The function `base64.URLEncoding.EncodeToString`. -/
def base64.URLEncoding.EncodeToString (src : Bytes) : String := String.mk (b64Encode true src)

/-- The function `base64.RawURLEncoding.EncodeToString`: no padding. -/
def base64.RawURLEncoding.EncodeToString (src : Bytes) : String :=
  String.mk (b64Encode false src)

/-! ## Package `authenticator` -/

/-- The table `hashFuncs`. -/
def hashFuncs : GoMap HashFunc := GoMap.ofList [("sha1", sha1.New), ("sha256", sha256.New)]

/-- The table `encryptFuncs`. -/
def encryptFuncs : GoMap (Bytes → String) :=
  GoMap.ofList [("hex", hex.EncodeToString),
    ("base64.URL", base64.URLEncoding.EncodeToString),
    ("base64.RawURL", base64.RawURLEncoding.EncodeToString)]

/-- The type `EmptyAuthenticator`: an empty struct. -/
structure EmptyAuthenticator where
deriving DecidableEq, Repr

/-- The function `NewEmptyAuthenticator`. -/
def NewEmptyAuthenticator : Except GoError EmptyAuthenticator := .ok {}

/-- The method `EmptyAuthenticator.Authenticate`: always nil. -/
def EmptyAuthenticator.Authenticate (_e : EmptyAuthenticator) (_message : Bytes)
    (_signature : String) : Option GoError := none

/-- The type `Signer`. -/
structure Signer where
  key : Bytes
  hasher : HashFunc
  encrypter : Bytes → String

/-- The function `NewSigner`. -/
def NewSigner (params : GoMap String) : Except GoError Signer :=
  match params.get? "Key" with
  | none => .error (errorsNew "Key not received for authenticator.")
  | some key =>
    match params.get? "Hasher" with
    | none => .error (errorsNew "Hasher not received for authenticator.")
    | some hasherP =>
      match params.get? "Encrypter" with
      | none => .error (errorsNew "Encrypter not received for authenticator.")
      | some encrypterP =>
        match hashFuncs.get? hasherP with
        | none => .error (errorsNew "Hashing function not found in hashFuncs.")
        | some hashF =>
          match encryptFuncs.get? encrypterP with
          | none => .error (errorsNew "Hashing function not found in hashFuncs.")
          | some encryptF => .ok ⟨bytesOf key, hashF, encryptF⟩

/-- The function `getHMAC`. -/
def getHMAC (message key : Bytes) (hasher : HashFunc) : Bytes :=
  let mac := hmac.New hasher key
  let mac := mac.Write message
  mac.Sum []

/-- The method `Signer.Authenticate`. -/
def Signer.Authenticate (s : Signer) (message : Bytes) (signature : String) : Option GoError :=
  let newSignature := s.encrypter (getHMAC message s.key s.hasher)
  if signature = newSignature then none
  else some (fmtErrorf "Signatures don't match. Received %q - Generated %q"
    [signature, newSignature])

/-- The interface `Authenticator`: the two implementations of the package and any other. -/
inductive Authenticator where
  | empty (e : EmptyAuthenticator)
  | signer (s : Signer)
  | other (Authenticate : Bytes → String → Option GoError)

/-- The interface method `Authenticate`. -/
def Authenticator.Authenticate : Authenticator → Bytes → String → Option GoError
  | .empty e, message, signature => e.Authenticate message signature
  | .signer s, message, signature => s.Authenticate message signature
  | .other au, message, signature => au message signature

/-- The function `CreateAuthenticator`: the switch on the class name. -/
def CreateAuthenticator (cls : String) (params : GoMap String) : Except GoError Authenticator :=
  if cls = "Signer" then (NewSigner params).map Authenticator.signer
  else NewEmptyAuthenticator.map Authenticator.empty

/-! ## Package `writer`

A `FileWriter` has a background goroutine, `fileWrite`, that receives the messages from the
unbuffered channel `mchan` and appends them to the file.  A send on `mchan` completes when
the goroutine receives, and the goroutine receives the next message only after it has dealt
with the one before: the embedding runs the body of its loop for a message as part of the
`Write` that hands the message over.  The field `deadline` is never used and is left out. -/

/-- The file behind an `*os.File` opened for appending: its content, whether it has been
closed, and what the system does with the next write (`some k`: the write fails after `k`
bytes). -/
structure File where
  data : String
  closed : Bool
  fault : Option Nat
deriving DecidableEq, Repr

/-- The method `WriteString` of `*os.File`: the number of bytes written, the error, and
the file afterwards. -/
def File.WriteString (f : File) (s : String) : (Nat × Option GoError) × File :=
  if f.closed then ((0, some (errorsNew "file already closed")), f)
  else
    match f.fault with
    | none => ((s.length, none), { f with data := f.data ++ s })
    | some k =>
      ((min k s.length, some (errorsNew "input/output error")),
        { f with data := f.data ++ String.mk (s.toList.take k) })

/-- The method `Close` of `*os.File`. -/
def File.Close (f : File) : Option GoError × File :=
  if f.closed then (some (errorsNew "file already closed"), f)
  else (none, { f with closed := true })

/-- The function `strings.HasSuffix`. -/
def strings.HasSuffix (s suffix : String) : Bool := suffix.toList.isSuffixOf s.toList

/-- The conversion to `int64`: two-complement wrap-around. -/
def toInt64 (x : Int) : Int :=
  (x + 9223372036854775808) % 18446744073709551616 - 9223372036854775808

/-- The type `ConsoleWriter`: an empty struct. -/
structure ConsoleWriter where
deriving DecidableEq, Repr

/-- The function `NewConsoleWriter`. -/
def NewConsoleWriter : Except GoError ConsoleWriter := .ok {}

/-- The method `ConsoleWriter.Write`: logs the message. -/
def ConsoleWriter.Write (w : ConsoleWriter) (_content : String) : Option GoError × ConsoleWriter :=
  (none, w)

/-- The method `ConsoleWriter.Close`: logs a closing message. -/
def ConsoleWriter.Close (w : ConsoleWriter) : ConsoleWriter := w

/-- The type `MemoryWriter`. -/
structure MemoryWriter where
  Messages : List String
deriving DecidableEq, Repr

/-- The function `NewMemoryWriter`: an empty struct, its slice is nil. -/
def NewMemoryWriter : Except GoError MemoryWriter := .ok ⟨[]⟩

/-- The method `MemoryWriter.Write`: appends the message. -/
def MemoryWriter.Write (w : MemoryWriter) (content : String) : Option GoError × MemoryWriter :=
  (none, { w with Messages := w.Messages ++ [content] })

/-- The method `MemoryWriter.GetMessages`. -/
def MemoryWriter.GetMessages (w : MemoryWriter) : List String := w.Messages

/-- The method `MemoryWriter.Close`: deletes all the messages. -/
def MemoryWriter.Close (w : MemoryWriter) : MemoryWriter := { w with Messages := [] }

/-- The state of a channel: nil (the zero value), open, or closed. -/
inductive Chan where
  | nil
  | opened
  | closed
deriving DecidableEq, Repr

/-- Where the goroutine `fileWrite` is: in its loop, ready to receive; returned after a
failed write, without a message on `done`; or returned after the message on `done` was
received. -/
inductive Task where
  | receiving
  | failed
  | finished
deriving DecidableEq, Repr

/-- The type `FileWriter`: the file, the size counter, the channel `mchan`, and the
goroutine that serves it (the channel `done` carries its one message when it finishes). -/
structure FileWriter where
  file : File
  size : Int
  mchan : Chan
  task : Task
deriving DecidableEq, Repr

/-- The function `NewFileWriter`; `openFile` is `os.OpenFile` with the flags and mode of
the source. -/
def NewFileWriter (openFile : String → Except GoError File) (filepath : String) :
    Except GoError FileWriter :=
  match openFile filepath with
  | .error err => .error err
  | .ok file => .ok { file := file, size := 0, mchan := .opened, task := .receiving }

/-- The body of the loop of `fileWrite` for one message `m`. -/
def FileWriter.fileWrite (w : FileWriter) (m : String) : FileWriter :=
  let newline := if !strings.HasSuffix m "\n" then "\n" else ""
  match w.file.WriteString (m ++ newline) with
  | ((_, some _), file) => { w with file := file, task := .failed }
  | ((n, none), file) => { w with file := file, size := toInt64 (w.size + n) }

/-- The method `FileWriter.Write`: the send `w.mchan <- content`. -/
def FileWriter.Write (w : FileWriter) (content : String) :
    Outcome (Option GoError) × FileWriter :=
  match w.mchan with
  | .nil => (.blocks, w)
  | .closed => (.panics "send on closed channel", w)
  | .opened =>
    match w.task with
    | .receiving => (.returns none, w.fileWrite content)
    | .failed => (.blocks, w)
    | .finished => (.blocks, w)

/-- The method `FileWriter.Close`: closes `mchan`, waits for the message on `done`, closes
the file. -/
def FileWriter.Close (w : FileWriter) : Outcome Unit × FileWriter :=
  match w.mchan with
  | .nil => (.panics "close of nil channel", w)
  | .closed => (.panics "close of closed channel", w)
  | .opened =>
    match w.task with
    | .receiving =>
      (.returns (), { w with mchan := .closed, task := .finished, file := w.file.Close.2 })
    | .failed => (.blocks, { w with mchan := .closed })
    | .finished => (.blocks, { w with mchan := .closed })

/-- Any other implementation of the interface `Writer`: a state and the two methods. -/
structure OtherWriter where
  State : Type
  state : State
  Write : State → String → Option GoError × State
  Close : State → State

/-- The object behind a value of the interface `Writer`: the three implementations of the
package and any other. -/
inductive Writer : Type 1 where
  | console (w : ConsoleWriter)
  | memory (w : MemoryWriter)
  | file (w : FileWriter)
  | other (w : OtherWriter)

/-- The interface method `Write`: how the call ends and the object afterwards. -/
def Writer.Write : Writer → String → Outcome (Option GoError) × Writer
  | .console w, content => (.returns (w.Write content).1, .console (w.Write content).2)
  | .memory w, content => (.returns (w.Write content).1, .memory (w.Write content).2)
  | .file w, content => ((w.Write content).1, .file (w.Write content).2)
  | .other w, content =>
    (.returns (w.Write w.state content).1, .other { w with state := (w.Write w.state content).2 })

/-- The interface method `Close`: how the call ends and the object afterwards. -/
def Writer.Close : Writer → Outcome Unit × Writer
  | .console w => (.returns (), .console w.Close)
  | .memory w => (.returns (), .memory w.Close)
  | .file w => (w.Close.1, .file w.Close.2)
  | .other w => (.returns (), .other { w with state := w.Close w.state })

/-- The writer objects in memory, by address, and the next free address. -/
structure Heap where
  obj : Nat → Writer
  next : Nat

/-- The heap after the object at address `r` has become `w`. -/
def Heap.set (h : Heap) (r : Nat) (w : Writer) : Heap := { h with obj := Function.update h.obj r w }

/-- A new object: its address and the heap with it. -/
def Heap.alloc (h : Heap) (w : Writer) : Nat × Heap :=
  (h.next, { obj := Function.update h.obj h.next w, next := h.next + 1 })

/-- The function `CreateWriter`: the switch on the class name.  The constructors return
pointers: the new object is put on the heap and its address is returned. -/
def CreateWriter (openFile : String → Except GoError File) (heap : Heap) (cls : String)
    (params : GoMap String) : Except GoError (Nat × Heap) :=
  if cls = "MemoryWriter" then NewMemoryWriter.map (fun w => heap.alloc (.memory w))
  else if cls = "FileWriter" then
    (NewFileWriter openFile (params.index "filepath")).map (fun w => heap.alloc (.file w))
  else NewConsoleWriter.map (fun w => heap.alloc (.console w))

/-- A caller that writes the contents one after the other to one writer, as the tests of
the package do: how each call ends and the writer afterwards.  A call that does not return
is the last one. -/
def Writer.writeAll : Writer → List String → List (Outcome (Option GoError)) × Writer
  | w, [] => ([], w)
  | w, content :: rest =>
    match (w.Write content).1 with
    | .returns err =>
      (.returns err :: (Writer.writeAll (w.Write content).2 rest).1,
        (Writer.writeAll (w.Write content).2 rest).2)
    | out => ([out], (w.Write content).2)

/-- What the specification says a `FileWriter` appends for a message: the message, followed
by a newline when it does not end with one. -/
def framedLine (m : String) : String := if strings.HasSuffix m "\n" then m else m ++ "\n"

/-- What the specification says a `FileWriter` appends for a list of messages: their
lines, in order. -/
def framedText : List String → String
  | [] => ""
  | m :: rest => framedLine m ++ framedText rest

/-! ## Package `webserver` -/

/-- The type `service`: the three plugins of a service; the writer by its address. -/
structure service where
  ext : Option Extractor
  auth : Option Authenticator
  w : Option Nat

/-- The function `SetService`, on the package variable `services`. -/
def SetService (services : GoMap service) (key : String) (ext : Option Extractor)
    (auth : Option Authenticator) (writer : Option Nat) : GoMap service :=
  services.set key { ext := ext, auth := auth, w := writer }

/-- The constant `http.StatusOK`. -/
abbrev http.StatusOK : Nat := 200

/-- The constant `http.StatusBadRequest`. -/
abbrev http.StatusBadRequest : Nat := 400

/-- The constant `http.StatusUnauthorized`. -/
abbrev http.StatusUnauthorized : Nat := 401

/-- The constant `http.StatusNotFound`. -/
abbrev http.StatusNotFound : Nat := 404

/-- The constant `http.StatusInternalServerError`. -/
abbrev http.StatusInternalServerError : Nat := 500

/-- The response a handler writes: the status code and, with `c.JSON`, the error whose
message is the field `Error` of the JSON body. -/
structure Response where
  status : Nat
  error : Option GoError
deriving DecidableEq, Repr

/-- A call of a plugin method, or the reading of the body, made while a request is
handled. -/
inductive Call where
  | Extract
  | Validate
  | GetRawData
  | Authenticate (message : Bytes) (signature : String)
  | Write (content : String)
deriving DecidableEq, Repr

/-- A run of a handler: how it ends, the heap afterwards, and the calls made, in order. -/
structure Handled where
  response : Outcome Response
  heap : Heap
  calls : List Call

/-- The run-time error of a method call on a nil interface value. -/
def nilDereference : String := "invalid memory address or nil pointer dereference"

/-- The function `DataHandler`, on the package variable `services` and the heap.  Next to
the response it gives the heap afterwards and the calls it has made. -/
def DataHandler (services : GoMap service) (heap : Heap) (c : Context) : Handled :=
  match services.get? (c.Param "service") with
  | none =>
    ⟨.returns ⟨http.StatusNotFound, some (fmtErrorf "Service %q not found." [c.Param "service"])⟩,
      heap, []⟩
  | some service =>
    match service.ext with
    | none => ⟨.panics nilDereference, heap, []⟩
    | some ext =>
      let extract := ext.Extract c
      match ext.Validate extract with
      | some err => ⟨.returns ⟨http.StatusBadRequest, some err⟩, heap, [.Extract, .Validate]⟩
      | none =>
        match c.GetRawData with
        | .error err =>
          ⟨.returns ⟨http.StatusUnauthorized, some err⟩, heap, [.Extract, .Validate, .GetRawData]⟩
        | .ok body =>
          match service.auth with
          | none => ⟨.panics nilDereference, heap, [.Extract, .Validate, .GetRawData]⟩
          | some auth =>
            let calls := [.Extract, .Validate, .GetRawData,
              .Authenticate body (extract.index "signature")]
            match auth.Authenticate body (extract.index "signature") with
            | some err => ⟨.returns ⟨http.StatusUnauthorized, some err⟩, heap, calls⟩
            | none =>
              match service.w with
              | none => ⟨.panics nilDereference, heap, calls⟩
              | some w =>
                let written := (heap.obj w).Write (stringOf body)
                let heap := heap.set w written.2
                let calls := calls ++ [.Write (stringOf body)]
                match written.1 with
                | .returns (some err) =>
                  ⟨.returns ⟨http.StatusInternalServerError, some err⟩, heap, calls⟩
                | .returns none => ⟨.returns ⟨http.StatusOK, none⟩, heap, calls⟩
                | .panics reason => ⟨.panics reason, heap, calls⟩
                | .blocks => ⟨.blocks, heap, calls⟩

/-! ## Package `configuration` -/

/-- The type `SimpleConfig`: the class of a plugin and its parameters. -/
structure SimpleConfig where
  Class : String
  Parameters : GoMap String

/-- The function `NewSimpleConfig`. -/
def NewSimpleConfig (cls : String) (params : GoMap String) : SimpleConfig := ⟨cls, params⟩

/-- The type `ServiceConfig`: three pointers to a `SimpleConfig`, `none` being nil. -/
structure ServiceConfig where
  ExtConfig : Option SimpleConfig
  AuthConfig : Option SimpleConfig
  WriConfig : Option SimpleConfig

/-- The function `NewServiceConfig`. -/
def NewServiceConfig (ext auth w : Option SimpleConfig) : ServiceConfig := ⟨ext, auth, w⟩

/-- The type `ServiceMap`: the map of the services, from a name to a pointer to a
`ServiceConfig`.  The map itself is `none` when it is nil: a nil map reads as the empty
map, and an assignment to it is a run-time error. -/
structure ServiceMap where
  Services : Option (GoMap (Option ServiceConfig))

/-- The function `NewServiceMap`: the map is made, and empty. -/
def NewServiceMap : ServiceMap := ⟨some GoMap.empty⟩

/-- The method `ServiceMap.Add`: how the call ends and the map afterwards. -/
def ServiceMap.Add (c : ServiceMap) (name : String) (conf : Option ServiceConfig) :
    Outcome (Option GoError) × ServiceMap :=
  match c.Services with
  | none => (.panics "assignment to entry in nil map", c)
  | some m =>
    match m.get? name with
    | some _ => (.returns (some (fmtErrorf "Service %q already exists." [name])), c)
    | none => (.returns none, { Services := some (m.set name conf) })

/-- The method `ServiceMap.List`: the keys, as the range loop meets them. -/
def ServiceMap.List (c : ServiceMap) : List String :=
  match c.Services with
  | none => []
  | some m => m.entries.foldl (fun temp kv => temp ++ [kv.1]) []

/-- The method `ServiceMap.Get`. -/
def ServiceMap.Get (c : ServiceMap) (name : String) : Except GoError (Option ServiceConfig) :=
  match c.Services with
  | none => .error (fmtErrorf "Service %q not found." [name])
  | some m =>
    match m.get? name with
    | none => .error (fmtErrorf "Service %q not found." [name])
    | some s => .ok s

/-! ## Package `configuration`: the parsers -/

/-- The loop of `filepath.Ext`, from the last character of the path backwards: up to a
separator there is no extension, at a dot the extension is the dot and what was passed. -/
def extScan : List Char → List Char → List Char
  | [], _ => []
  | c :: rest, passed =>
    if c = '/' then [] else if c = '.' then '.' :: passed else extScan rest (c :: passed)

/-- The function `filepath.Ext`: the suffix of the last element of the path that starts at
its last dot, or the empty string. -/
def filepath.Ext (path : String) : String := String.mk (extScan path.toList.reverse [])

/-- What the parsers and the file writer take from the host: `ioutil.ReadFile`,
`json.Unmarshal` and `yaml.Unmarshal` into a `ServiceMap` (the error, and the map
afterwards), and `os.OpenFile` with the flags and mode of `NewFileWriter`. -/
structure Host where
  ReadFile : String → Except GoError Bytes
  jsonUnmarshal : Bytes → ServiceMap → Option GoError × ServiceMap
  yamlUnmarshal : Bytes → ServiceMap → Option GoError × ServiceMap
  OpenFile : String → Except GoError File

/-- The type `JsonFileParser`. -/
structure JsonFileParser where
  filepath : String
deriving DecidableEq, Repr

/-- The function `NewJsonFileParser`. -/
def NewJsonFileParser (f : String) : JsonFileParser := { filepath := f }

/-- The method `JsonFileParser.Parse`: the error, and the configuration afterwards. -/
def JsonFileParser.Parse (host : Host) (c : JsonFileParser) (conf : ServiceMap) :
    Option GoError × ServiceMap :=
  match host.ReadFile c.filepath with
  | .error err => (some err, conf)
  | .ok b => host.jsonUnmarshal b conf

/-- The type `JsonRecordParser`. -/
structure JsonRecordParser where
  content : String
deriving DecidableEq, Repr

/-- The function `NewJsonRecordParser`. -/
def NewJsonRecordParser (s : String) : JsonRecordParser := { content := s }

/-- The method `JsonRecordParser.Parse`: the error, and the configuration afterwards. -/
def JsonRecordParser.Parse (host : Host) (c : JsonRecordParser) (conf : ServiceMap) :
    Option GoError × ServiceMap :=
  host.jsonUnmarshal (bytesOf c.content) conf

/-- The type `YamlFileParser`. -/
structure YamlFileParser where
  filepath : String
deriving DecidableEq, Repr

/-- The function `NewYamlFileParser`. -/
def NewYamlFileParser (f : String) : YamlFileParser := { filepath := f }

/-- The method `YamlFileParser.Parse`: the error, and the configuration afterwards. -/
def YamlFileParser.Parse (host : Host) (c : YamlFileParser) (conf : ServiceMap) :
    Option GoError × ServiceMap :=
  match host.ReadFile c.filepath with
  | .error err => (some err, conf)
  | .ok b => host.yamlUnmarshal b conf

/-- The interface `Parser`: the three implementations of the package and any other. -/
inductive Parser where
  | jsonFile (p : JsonFileParser)
  | jsonRecord (p : JsonRecordParser)
  | yamlFile (p : YamlFileParser)
  | other (Parse : ServiceMap → Option GoError × ServiceMap)

/-- The interface method `Parse`. -/
def Parser.Parse (host : Host) : Parser → ServiceMap → Option GoError × ServiceMap
  | .jsonFile p, conf => p.Parse host conf
  | .jsonRecord p, conf => p.Parse host conf
  | .yamlFile p, conf => p.Parse host conf
  | .other parse, conf => parse conf

/-- The function `CreateParser`; `none` is the nil interface value. -/
def CreateParser (f record : String) : Option Parser :=
  let ext := filepath.Ext f
  if ext = ".json" then some (.jsonFile (NewJsonFileParser f))
  else if ext = ".yaml" then some (.yamlFile (NewYamlFileParser f))
  else if record ≠ "" then some (.jsonRecord (NewJsonRecordParser record))
  else none

/-! ## Package `webserver`: `Initialize` and `CloseWriters` -/

/-- A run of a function of the package on its variable `services` and on the heap: how it
ends, and the registry and the heap afterwards. -/
structure Run (α : Type) where
  result : Outcome α
  services : GoMap service
  heap : Heap

/-- The loop of `Initialize` over the names that `conf.List()` returned. -/
def initializeRange (host : Host) (conf : ServiceMap) :
    List String → GoMap service → Heap → Run Unit
  | [], services, heap => ⟨.returns (), services, heap⟩
  | s :: rest, services, heap =>
    match conf.Get s with
    | .error _ => initializeRange host conf rest services heap
    | .ok none => ⟨.panics nilDereference, services, heap⟩
    | .ok (some serv) =>
      match serv.ExtConfig with
      | none => ⟨.panics nilDereference, services, heap⟩
      | some extConfig =>
        match CreateExtractor extConfig.Class extConfig.Parameters with
        | .error _ => initializeRange host conf rest services heap
        | .ok newExt =>
          match serv.AuthConfig with
          | none => ⟨.panics nilDereference, services, heap⟩
          | some authConfig =>
            match CreateAuthenticator authConfig.Class authConfig.Parameters with
            | .error _ => initializeRange host conf rest services heap
            | .ok newAuth =>
              match serv.WriConfig with
              | none => ⟨.panics nilDereference, services, heap⟩
              | some wriConfig =>
                match CreateWriter host.OpenFile heap wriConfig.Class wriConfig.Parameters with
                | .error _ => initializeRange host conf rest services heap
                | .ok (newWriter, heap) =>
                  initializeRange host conf rest
                    (SetService services s (some newExt) (some newAuth) (some newWriter)) heap

/-- The function `Initialize`, on the package variable `services` and the heap. -/
def Initialize (host : Host) (services : GoMap service) (heap : Heap)
    (filepath cfgInline : String) : Run (Option GoError) :=
  let conf := NewServiceMap
  match CreateParser filepath cfgInline with
  | none => ⟨.panics nilDereference, services, heap⟩
  | some parser =>
    match parser.Parse host conf with
    | (some err, _) => ⟨.returns (some err), services, heap⟩
    | (none, conf) =>
      let looped := initializeRange host conf conf.List services heap
      match looped.result with
      | .returns _ => ⟨.returns none, looped.services, looped.heap⟩
      | .panics reason => ⟨.panics reason, looped.services, looped.heap⟩
      | .blocks => ⟨.blocks, looped.services, looped.heap⟩

/-- The loop of `CloseWriters` over the entries of `services`. -/
def closeRange : List (String × service) → Heap → Outcome Unit × Heap
  | [], heap => (.returns (), heap)
  | (_, v) :: rest, heap =>
    match v.w with
    | none => (.panics nilDereference, heap)
    | some w =>
      match (heap.obj w).Close with
      | (.returns _, closed) => closeRange rest (heap.set w closed)
      | (.panics reason, closed) => (.panics reason, heap.set w closed)
      | (.blocks, closed) => (.blocks, heap.set w closed)

/-- The function `CloseWriters`, on the package variable `services` and the heap. -/
def CloseWriters (services : GoMap service) (heap : Heap) : Run Unit :=
  { result := (closeRange services.entries heap).1, services := services,
    heap := (closeRange services.entries heap).2 }

/-- The invariant that the specification gives the registry: every binding has an
extractor, an authenticator and a writer, none of them nil. -/
def allBound (services : GoMap service) : Bool :=
  services.entries.all (fun e => e.2.ext.isSome && e.2.auth.isSome && e.2.w.isSome)

/-! ## The requests and services of the tests of the repository -/

/-- The request of `TestHeaderExtractor_Extract`. -/
def headerTestContext : Context where
  params := fun _ => none
  headers := fun name =>
    if name = "x-signature" then some "message signature"
    else if name = "x-user-id" then some "testUserId" else none
  query := fun _ => none
  body := .ok (bytesOf "This is the body of the message")

/-- The request of `TestQueryExtractor_Extract`. -/
def queryTestContext : Context where
  params := fun _ => none
  headers := fun _ => none
  query := fun name =>
    if name = "c" then some "testUserId"
    else if name = "s" then some "message signature" else none
  body := .ok (bytesOf "This is the body of the message")

/-- The service of `TestDataHandler`, as `setupTest` builds it: the signature is read from
the header `x-signature`, the signer has key magicKey, sha256 and base64.URL. -/
def handlerTestService (w : Nat) : service where
  ext := some (.header ⟨GoMap.ofList [("signature", "x-signature")]⟩)
  auth := some (.signer ⟨bytesOf "magicKey", sha256.New, base64.URLEncoding.EncodeToString⟩)
  w := some w

/-- The registry of `TestDataHandler`: the service `test`, its writer at address 0. -/
def handlerTestServices : GoMap service :=
  SetService GoMap.empty "test" (handlerTestService 0).ext (handlerTestService 0).auth
    (handlerTestService 0).w

/-- A heap whose writers are all new `MemoryWriter`s. -/
def memoryHeap : Heap where
  obj := fun _ => .memory ⟨[]⟩
  next := 1

/-- A writer of another kind whose `Write` always returns an error. -/
def failingWriter : OtherWriter where
  State := Unit
  state := ()
  Write := fun st _ => (some (errorsNew "no space left on device"), st)
  Close := fun st => st

/-- A heap whose writers all fail. -/
def failingHeap : Heap where
  obj := fun _ => .other failingWriter
  next := 1

/-- A request for a service with the given headers and body. -/
def requestFor (name : String) (headers : String → Option String) (body : Bytes) : Context where
  params := fun key => if key = "service" then some name else none
  headers := headers
  query := fun _ => none
  body := .ok body

/-- The request of `TestDataHandler`. -/
def handlerTestContext : Context :=
  requestFor "test"
    (fun name =>
      if name = "x-user-id" then some "test_id"
      else if name = "x-signature" then some "GXjQXzGexUuSH444qEyMI-b9Lif_Uq39gElhs_7PMVY="
      else none)
    (bytesOf "test message")

/-- The request of `TestDataHandler` without its signature header. -/
def unsignedTestContext : Context :=
  requestFor "test" (fun name => if name = "x-user-id" then some "test_id" else none)
    (bytesOf "test message")

/-- The request of `TestDataHandler` with another signature. -/
def forgedTestContext : Context :=
  requestFor "test" (fun name => if name = "x-signature" then some "Wrong signature" else none)
    (bytesOf "test message")

/-- A new, empty file without faults. -/
def emptyFile : File := { data := "", closed := false, fault := none }

/-- A `FileWriter` as `NewFileWriter` returns it on a new file. -/
def newFileWriter : FileWriter :=
  { file := emptyFile, size := 0, mchan := .opened, task := .receiving }

/-- A `FileWriter` on a file that the system refuses to extend. -/
def faultyFileWriter : FileWriter :=
  { file := { data := "", closed := false, fault := some 0 }, size := 0, mchan := .opened,
    task := .receiving }

/-- The configuration of `TestNewServiceMap`. -/
def testServiceConfig : ServiceConfig :=
  NewServiceConfig (some ⟨"HeaderExtractor", GoMap.empty⟩)
    (some ⟨"Signer", GoMap.ofList [("Key", "magicKey")]⟩)
    (some ⟨"MemoryWriter", GoMap.empty⟩)

/-- A host whose decoders give the configuration `conf` for every input, and whose files
are new and take every write. -/
def hostDecoding (conf : ServiceMap) : Host where
  ReadFile := fun _ => .ok []
  jsonUnmarshal := fun _ _ => (none, conf)
  yamlUnmarshal := fun _ _ => (none, conf)
  OpenFile := fun _ => .ok emptyFile

/-- The configuration of a service whose three plugins can be built: the signature is read
from the header `x-signature`, the signer has sha256 and base64.URL, the writer is a
`MemoryWriter`. -/
def completeServiceConfig : ServiceConfig :=
  NewServiceConfig (some ⟨"HeaderExtractor", GoMap.ofList [("signature", "x-signature")]⟩)
    (some ⟨"Signer", GoMap.ofList [("Key", "magicKey"), ("Hasher", "sha256"),
      ("Encrypter", "base64.URL")]⟩)
    (some ⟨"MemoryWriter", GoMap.empty⟩)

/-- The configuration of a service without the descriptor of its extractor, as a document
that gives the service an authenticator and a writer only decodes. -/
def noExtractorServiceConfig : ServiceConfig :=
  NewServiceConfig none completeServiceConfig.AuthConfig completeServiceConfig.WriConfig

/-- The registry of `TestDataHandler` with another key, `magickey`, for its signer. -/
def otherKeyServices : GoMap service :=
  SetService GoMap.empty "test" (handlerTestService 0).ext
    (some (.signer ⟨bytesOf "magickey", sha256.New, base64.URLEncoding.EncodeToString⟩))
    (handlerTestService 0).w

/-- The registry of `TestDataHandler` with an extractor that reads the user as well, from
the header `x-user-id`. -/
def twoFieldServices : GoMap service :=
  SetService GoMap.empty "test"
    (some (.header ⟨GoMap.ofList [("signature", "x-signature"), ("user_id", "x-user-id")]⟩))
    (handlerTestService 0).auth (handlerTestService 0).w

/-- The request of `TestDataHandler` from another user. -/
def otherUserTestContext : Context :=
  requestFor "test"
    (fun name =>
      if name = "x-user-id" then some "other_id"
      else if name = "x-signature" then some "GXjQXzGexUuSH444qEyMI-b9Lif_Uq39gElhs_7PMVY="
      else none)
    (bytesOf "test message")

/-- A heap on which the writer of the service of `TestDataHandler`, at address 0, is a
`FileWriter` on a file that the system refuses to extend. -/
def faultyFileHeap : Heap := memoryHeap.set 0 (.file faultyFileWriter)

/-- A registry with two services at shutdown: `file`, its writer at address 0, and `mem`,
its writer at address 1; the range over the map visits `file` first. -/
def shutdownServices : GoMap service :=
  SetService
    (SetService GoMap.empty "mem" (handlerTestService 1).ext (handlerTestService 1).auth
      (handlerTestService 1).w)
    "file" (handlerTestService 0).ext (handlerTestService 0).auth (handlerTestService 0).w

/-- The registry `shutdownServices` when the range over the map visits `mem` first. -/
def shutdownServicesMemFirst : GoMap service :=
  SetService
    (SetService GoMap.empty "file" (handlerTestService 0).ext (handlerTestService 0).auth
      (handlerTestService 0).w)
    "mem" (handlerTestService 1).ext (handlerTestService 1).auth (handlerTestService 1).w

/-- The heap at shutdown: at address 0 a `FileWriter` after a `Write` whose append failed,
at address 1 a `MemoryWriter` that holds the message `kept`. -/
def shutdownHeap : Heap :=
  (memoryHeap.set 0 (Writer.Write (.file faultyFileWriter) "a").2).set 1
    (.memory { Messages := ["kept"] })

/-! ## Facts about Go maps -/

theorem lookup_eq_none_of_not_mem {β : Type} (k : String) :
    ∀ l : List (String × β), k ∉ l.map Prod.fst → l.lookup k = none
  | [], _ => rfl
  | (k0, v0) :: t, h => by
    simp only [List.map_cons, List.mem_cons, not_or] at h
    have hne : (k == k0) = false := by simpa using h.1
    simp only [List.lookup_cons, hne]
    exact lookup_eq_none_of_not_mem k t h.2

theorem lookup_eq_some_of_mem {β : Type} (k : String) (v : β) :
    ∀ l : List (String × β), (l.map Prod.fst).Nodup → (k, v) ∈ l → l.lookup k = some v
  | [], _, h => by simp at h
  | (k0, v0) :: t, hn, h => by
    simp only [List.map_cons, List.nodup_cons] at hn
    rcases List.mem_cons.1 h with h0 | ht
    · cases h0
      simp [List.lookup_cons]
    · have hk : k ∈ t.map Prod.fst := List.mem_map.2 ⟨(k, v), ht, rfl⟩
      have hne : (k == k0) = false := by
        have : k ≠ k0 := fun e => hn.1 (e ▸ hk)
        simpa using this
      simp only [List.lookup_cons, hne]
      exact lookup_eq_some_of_mem k v t hn.2 ht

theorem mem_of_lookup_eq_some {β : Type} (k : String) (v : β) :
    ∀ l : List (String × β), l.lookup k = some v → (k, v) ∈ l
  | [], h => by simp at h
  | (k0, v0) :: t, h => by
    simp only [List.lookup_cons] at h
    by_cases hk : k = k0
    · subst hk
      simp at h
      simp [h]
    · have hne : (k == k0) = false := by simpa using hk
      simp only [hne] at h
      exact List.mem_cons_of_mem _ (mem_of_lookup_eq_some k v t h)

theorem lookup_filter_ne {β : Type} (k k1 : String) (hne : k1 ≠ k) :
    ∀ l : List (String × β), (l.filter (fun e => e.1 ≠ k)).lookup k1 = l.lookup k1
  | [] => rfl
  | (k0, v0) :: t => by
    have ih := lookup_filter_ne k k1 hne t
    by_cases h0 : k0 = k
    · subst h0
      have hb : (k1 == k0) = false := by simpa using hne
      simp only [List.filter_cons, List.lookup_cons, hb, ne_eq, not_true_eq_false,
        decide_False, Bool.false_eq_true, if_false]
      exact ih
    · simp only [List.filter_cons, ne_eq, h0, not_false_eq_true, decide_True, if_true,
        List.lookup_cons]
      cases k1 == k0
      · exact ih
      · rfl

namespace GoMap

variable {β : Type}

theorem get?_empty (k : String) : (empty : GoMap β).get? k = none := rfl

theorem get?_set (m : GoMap β) (k : String) (v : β) (k1 : String) :
    (m.set k v).get? k1 = if k1 = k then some v else m.get? k1 := by
  by_cases h : k1 = k
  · subst h
    simp [get?, set, List.lookup_cons]
  · have hb : (k1 == k) = false := by simpa using h
    simp only [get?, set, List.lookup_cons, hb, if_neg h]
    exact lookup_filter_ne k k1 h m.entries

theorem get?_eq_some_iff (m : GoMap β) (k : String) (v : β) :
    m.get? k = some v ↔ (k, v) ∈ m.entries :=
  ⟨mem_of_lookup_eq_some k v m.entries, lookup_eq_some_of_mem k v m.entries m.nodup⟩

theorem mem_keys_iff (m : GoMap β) (k : String) : k ∈ m.keys ↔ ∃ v, m.get? k = some v := by
  constructor
  · intro h
    obtain ⟨⟨k0, v⟩, hmem, rfl⟩ := List.mem_map.1 h
    exact ⟨v, (m.get?_eq_some_iff _ v).2 hmem⟩
  · rintro ⟨v, hv⟩
    exact List.mem_map.2 ⟨(k, v), (m.get?_eq_some_iff k v).1 hv, rfl⟩

theorem get?_eq_none_iff (m : GoMap β) (k : String) : m.get? k = none ↔ k ∉ m.keys := by
  rw [mem_keys_iff]
  cases h : m.get? k <;> simp

theorem len_eq_zero_iff (m : GoMap β) : m.len = 0 ↔ ∀ k, m.get? k = none := by
  constructor
  · intro h k
    have : m.entries = [] := List.length_eq_zero.1 h
    simp [get?, this]
  · intro h
    cases hm : m.entries with
    | nil => simp [len, hm]
    | cons e t =>
      have hmem : (e.1, e.2) ∈ m.entries := by simp [hm]
      have := (m.get?_eq_some_iff e.1 e.2).2 hmem
      rw [h e.1] at this
      cases this

end GoMap

/-! ## Facts about package `extractor` -/

theorem extractRange_get? (get : String → String) (k : String) :
    ∀ (l : List (String × String)) (m : GoMap String), (l.map Prod.fst).Nodup →
      (extractRange get l m).get? k =
        match l.lookup k with
        | some name => some (get name)
        | none => m.get? k
  | [], m, _ => rfl
  | (k0, v0) :: t, m, hn => by
    simp only [List.map_cons, List.nodup_cons] at hn
    rw [extractRange, extractRange_get? get k t _ hn.2]
    by_cases hk : k = k0
    · subst hk
      simp [lookup_eq_none_of_not_mem k t hn.1, GoMap.get?_set, List.lookup_cons]
    · have hb : (k == k0) = false := by simpa using hk
      simp only [List.lookup_cons, hb, GoMap.get?_set, if_neg hk]

theorem extractRange_empty_get? (get : String → String) (cfg : GoMap String) (k : String) :
    (extractRange get cfg.entries GoMap.empty).get? k = (cfg.get? k).map get := by
  rw [extractRange_get? get k cfg.entries GoMap.empty cfg.nodup]
  simp only [GoMap.get?]
  cases cfg.entries.lookup k <;> rfl

theorem validateRange_eq_none_iff :
    ∀ l : List (String × String), validateRange l = none ↔ ∀ e ∈ l, e.2 ≠ ""
  | [] => by simp [validateRange]
  | (k, v) :: t => by
    by_cases hv : v = ""
    · simp [validateRange, hv]
    · simp [validateRange, hv, validateRange_eq_none_iff t]

theorem validateRange_eq_some :
    ∀ (l : List (String × String)) (err : GoError), validateRange l = some err →
      ∃ k, (k, "") ∈ l ∧ err = fmtErrorf "'%s' is empty" [k]
  | [], err, h => by simp [validateRange] at h
  | (k, v) :: t, err, h => by
    by_cases hv : v = ""
    · subst hv
      simp only [validateRange, if_true, Option.some.injEq] at h
      exact ⟨k, List.mem_cons_self _ _, h.symm⟩
    · simp only [validateRange, if_neg hv] at h
      obtain ⟨k1, hmem, he⟩ := validateRange_eq_some t err h
      exact ⟨k1, List.mem_cons_of_mem _ hmem, he⟩

theorem validateRange_isSome_iff (m : GoMap String) :
    (∃ err, validateRange m.entries = some err) ↔ ∃ k, m.get? k = some "" := by
  constructor
  · rintro ⟨err, h⟩
    obtain ⟨k, hmem, _⟩ := validateRange_eq_some _ err h
    exact ⟨k, (m.get?_eq_some_iff k "").2 hmem⟩
  · rintro ⟨k, hk⟩
    cases h : validateRange m.entries with
    | some err => exact ⟨err, rfl⟩
    | none =>
      exact absurd rfl ((validateRange_eq_none_iff _).1 h _ ((m.get?_eq_some_iff k "").1 hk))

/-! ## Facts about package `authenticator` -/

theorem hashFuncs_get? (name : String) :
    hashFuncs.get? name =
      if name = "sha1" then some sha1.New
      else if name = "sha256" then some sha256.New else none := by
  simp [hashFuncs, GoMap.ofList, GoMap.get?_set, GoMap.get?_empty]

theorem encryptFuncs_get? (name : String) :
    encryptFuncs.get? name =
      if name = "hex" then some hex.EncodeToString
      else if name = "base64.URL" then some base64.URLEncoding.EncodeToString
      else if name = "base64.RawURL" then some base64.RawURLEncoding.EncodeToString
      else none := by
  simp [encryptFuncs, GoMap.ofList, GoMap.get?_set, GoMap.get?_empty]

theorem hashFuncs_get?_isSome (name : String) :
    (∃ f, hashFuncs.get? name = some f) ↔ name ∈ ["sha1", "sha256"] := by
  rw [hashFuncs_get?]
  by_cases h1 : name = "sha1"
  · simp [h1]
  · by_cases h2 : name = "sha256"
    · simp [h2]
    · simp [h1, h2]

theorem encryptFuncs_get?_isSome (name : String) :
    (∃ f, encryptFuncs.get? name = some f) ↔ name ∈ ["hex", "base64.URL", "base64.RawURL"] := by
  rw [encryptFuncs_get?]
  by_cases h1 : name = "hex"
  · simp [h1]
  · by_cases h2 : name = "base64.URL"
    · simp [h2]
    · by_cases h3 : name = "base64.RawURL"
      · simp [h3]
      · simp [h1, h2, h3]

theorem getHMAC_eq (message key : Bytes) (hasher : HashFunc) :
    getHMAC message key hasher = hmacRFC2104 hasher key message := by
  simp [getHMAC, hmac.New, HMAC.Write, HMAC.Sum]

theorem Signer.Authenticate_eq_none_iff (s : Signer) (message : Bytes) (signature : String) :
    s.Authenticate message signature = none ↔
      signature = s.encrypter (hmacRFC2104 s.hasher s.key message) := by
  simp only [Signer.Authenticate, getHMAC_eq]
  split <;> simp_all

theorem NewSigner_eq_ok (params : GoMap String) (key hasherP encrypterP : String)
    (hashF : HashFunc) (encryptF : Bytes → String)
    (hk : params.get? "Key" = some key) (hh : params.get? "Hasher" = some hasherP)
    (he : params.get? "Encrypter" = some encrypterP)
    (hhash : hashFuncs.get? hasherP = some hashF)
    (henc : encryptFuncs.get? encrypterP = some encryptF) :
    NewSigner params = .ok ⟨bytesOf key, hashF, encryptF⟩ := by
  simp [NewSigner, hk, hh, he, hhash, henc]

set_option maxRecDepth 100000 in
/-- The signature of `TestSigner_Authenticate`. -/
theorem signature_sha1_rawurl :
    base64.RawURLEncoding.EncodeToString
        (hmacRFC2104 sha1.New (bytesOf "magickey") (bytesOf "Example message"))
      = "eZIp7BDQLn3PuZrDPWSlW3x6dgo" := by
  decide

set_option maxRecDepth 100000 in
/-- The same code in hexadecimal. -/
theorem signature_sha1_hex :
    hex.EncodeToString (hmacRFC2104 sha1.New (bytesOf "magickey") (bytesOf "Example message"))
      = "799229ec10d02e7dcfb99ac33d64a55b7c7a760a" := by
  decide

set_option maxRecDepth 100000 in
/-- The signature that the signer of `TestSigner_Invalid` generates. -/
theorem signature_sha256_url :
    base64.URLEncoding.EncodeToString
        (hmacRFC2104 sha256.New (bytesOf "magickey") (bytesOf "Example message"))
      = "T74tLOfKmtWHV660tkaAzoNPCWXeAWYy8lD5PUiEdqg=" := by
  decide

set_option maxRecDepth 100000 in
/-- The signature of `TestDataHandler`. -/
theorem signature_handler_test :
    base64.URLEncoding.EncodeToString
        (hmacRFC2104 sha256.New (bytesOf "magicKey") (bytesOf "test message"))
      = "GXjQXzGexUuSH444qEyMI-b9Lif_Uq39gElhs_7PMVY=" := by
  decide

theorem Authenticator.Authenticate_signer (s : Signer) (message : Bytes) (signature : String) :
    (Authenticator.signer s).Authenticate message signature = s.Authenticate message signature :=
  rfl

theorem stringMk_ne_empty (l : List Char) (h : l ≠ []) : String.mk l ≠ "" := by
  intro he
  have := congrArg String.data he
  exact h (by simpa using this)

theorem sha1Sum_ne_nil (msg : Bytes) : sha1Sum msg ≠ [] := by
  simp [sha1Sum, beBytes]

theorem sha256Sum_ne_nil (msg : Bytes) : sha256Sum msg ≠ [] := by
  simp [sha256Sum, beBytes]

theorem hex_EncodeToString_ne_empty (src : Bytes) (h : src ≠ []) :
    hex.EncodeToString src ≠ "" := by
  cases src with
  | nil => exact absurd rfl h
  | cons b t => exact stringMk_ne_empty _ (by simp [List.flatMap_cons])

theorem b64Encode_ne_nil (padding : Bool) (src : Bytes) (h : src ≠ []) :
    b64Encode padding src ≠ [] := by
  match src with
  | [] => exact absurd rfl h
  | [a] => simp [b64Encode]
  | [a, b] => simp [b64Encode]
  | a :: b :: c :: rest => simp [b64Encode]

/-- The encoded HMAC of a supported hash under a supported encoder is not the empty
string. -/
theorem encoded_hmac_ne_empty (hashF : HashFunc) (encryptF : Bytes → String) (key M : Bytes)
    (hhash : hashF = sha1.New ∨ hashF = sha256.New)
    (henc : encryptF = hex.EncodeToString ∨ encryptF = base64.URLEncoding.EncodeToString ∨
      encryptF = base64.RawURLEncoding.EncodeToString) :
    encryptF (hmacRFC2104 hashF key M) ≠ "" := by
  have hne : hmacRFC2104 hashF key M ≠ [] := by
    rcases hhash with h | h <;> subst h
    · exact sha1Sum_ne_nil _
    · exact sha256Sum_ne_nil _
  rcases henc with h | h | h <;> subst h
  · exact hex_EncodeToString_ne_empty _ hne
  · exact stringMk_ne_empty _ (b64Encode_ne_nil _ _ hne)
  · exact stringMk_ne_empty _ (b64Encode_ne_nil _ _ hne)

/-! ## Facts about the pipeline -/

theorem validate_extract_missing (get : String → String) (cfg : GoMap String)
    (k name : String) (hcfg : (k, name) ∈ cfg.entries) (habs : get name = "") :
    ∃ err, validateRange (extractRange get cfg.entries GoMap.empty).entries = some err := by
  refine (validateRange_isSome_iff _).2 ⟨k, ?_⟩
  rw [extractRange_empty_get?, (cfg.get?_eq_some_iff k name).2 hcfg]
  simp [habs]

/-- When the plugins of the service are there and every step up to the write succeeds,
the handler responds if and only if `Write` returns: a `Write` that ends in a run-time
error or waits forever, as the send of a `FileWriter` on a closed channel or to a goroutine
that has returned, leaves the request without a response. -/
theorem DataHandler_responds_iff_Write_returns (services : GoMap service) (heap : Heap)
    (c : Context) (svc : service) (ext : Extractor) (auth : Authenticator) (w : Nat) (B : Bytes)
    (hs : services.get? (c.Param "service") = some svc) (hext : svc.ext = some ext)
    (hv : ext.Validate (ext.Extract c) = none) (hb : c.GetRawData = .ok B)
    (hauth : svc.auth = some auth)
    (ha : auth.Authenticate B ((ext.Extract c).index "signature") = none)
    (hw : svc.w = some w) :
    (∃ resp, (DataHandler services heap c).response = .returns resp) ↔
      ∃ err, ((heap.obj w).Write (stringOf B)).1 = .returns err := by
  cases hwr : ((heap.obj w).Write (stringOf B)).1 with
  | returns o => cases o <;> simp [DataHandler, hs, hext, hv, hb, hauth, ha, hw, hwr]
  | panics reason => simp [DataHandler, hs, hext, hv, hb, hauth, ha, hw, hwr]
  | blocks => simp [DataHandler, hs, hext, hv, hb, hauth, ha, hw, hwr]

/-! ## Facts about package `writer` -/

theorem Writer.writeAll_memory (L : List String) :
    ∀ w : MemoryWriter, (Writer.memory w).writeAll L
      = (L.map (fun _ => Outcome.returns none), .memory { Messages := w.Messages ++ L })
  := by
  induction L with
  | nil => intro w; simp [Writer.writeAll]
  | cons content rest ih =>
    intro w
    simp [Writer.writeAll, Writer.Write, MemoryWriter.Write, ih]

theorem toInt64_eq (x : Int) (hlo : -9223372036854775808 ≤ x) (hhi : x < 9223372036854775808) :
    toInt64 x = x := by
  unfold toInt64
  omega

theorem FileWriter.fileWrite_eq (w : FileWriter) (m : String)
    (hclosed : w.file.closed = false) (hfault : w.file.fault = none) :
    w.fileWrite m = { w with
      file := { w.file with data := w.file.data ++ framedLine m },
      size := toInt64 (w.size + (framedLine m).length) } := by
  cases hs : strings.HasSuffix m "\n" <;>
    simp [FileWriter.fileWrite, File.WriteString, framedLine, hclosed, hfault, hs]

theorem Writer.writeAll_file (L : List String) :
    ∀ w : FileWriter, w.mchan = .opened → w.task = .receiving → w.file.closed = false →
      w.file.fault = none → -9223372036854775808 ≤ w.size →
      w.size + (framedText L).length < 9223372036854775808 →
      (Writer.file w).writeAll L
        = (L.map (fun _ => Outcome.returns none),
            .file { w with
              file := { w.file with data := w.file.data ++ framedText L },
              size := w.size + (framedText L).length }) := by
  induction L with
  | nil =>
    intro w _ _ _ _ _ _
    simp [Writer.writeAll, framedText]
  | cons m rest ih =>
    intro w hchan htask hclosed hfault hlo hhi
    have hlen : ((framedText (m :: rest)).length : Int)
        = (framedLine m).length + (framedText rest).length := by
      simp [framedText, String.length_append]
    rw [hlen] at hhi
    have hsize : toInt64 (w.size + (framedLine m).length) = w.size + (framedLine m).length :=
      toInt64_eq _ (by omega) (by omega)
    have hw : (Writer.file w).Write m
        = (.returns none, .file { w with
            file := { w.file with data := w.file.data ++ framedLine m },
            size := w.size + (framedLine m).length }) := by
      simp [Writer.Write, FileWriter.Write, hchan, htask, FileWriter.fileWrite_eq w m hclosed hfault,
        hsize]
    have ih1 := ih { w with
        file := { w.file with data := w.file.data ++ framedLine m },
        size := w.size + (framedLine m).length } hchan htask hclosed hfault (by simp; omega)
      (by simp; omega)
    simp only [Writer.writeAll, hw, ih1, List.map_cons]
    simp [framedText, String.append_assoc, hlen, add_assoc]

theorem FileWriter.Close_after_failed_append (w : FileWriter) (content : String)
    (hchan : w.mchan = .opened) (htask : w.task = .receiving)
    (hfail : w.file.closed = true ∨ ∃ k, w.file.fault = some k) :
    (w.Write content).1 = .returns none ∧ (w.Write content).2.Close.1 = .blocks := by
  have htask1 : (w.fileWrite content).task = .failed ∧ (w.fileWrite content).mchan = .opened := by
    rcases hfail with hclosed | ⟨k, hk⟩
    · simp [FileWriter.fileWrite, File.WriteString, hclosed, hchan]
    · cases hclosed : w.file.closed <;>
        simp [FileWriter.fileWrite, File.WriteString, hclosed, hk, hchan]
  simp [FileWriter.Write, hchan, htask, FileWriter.Close, htask1.1, htask1.2]

/-! ## Facts about package `configuration` -/

theorem foldl_append_keys {β : Type} :
    ∀ (l : List (String × β)) (temp : List String),
      l.foldl (fun temp kv => temp ++ [kv.1]) temp = temp ++ l.map Prod.fst
  | [], temp => by simp
  | kv :: rest, temp => by simp [foldl_append_keys rest]

theorem ServiceMap.List_eq_keys (m : GoMap (Option ServiceConfig)) :
    (ServiceMap.mk (some m)).List = m.keys := by
  simp [ServiceMap.List, foldl_append_keys, GoMap.keys]

/-! ## Facts about the rejection of a request -/

/-- The error of `Signer.Authenticate` on a signature that is not the generated one. -/
theorem Signer.Authenticate_of_ne (s : Signer) (message : Bytes) (signature : String)
    (hne : signature ≠ s.encrypter (hmacRFC2104 s.hasher s.key message)) :
    s.Authenticate message signature
      = some (fmtErrorf "Signatures don't match. Received %q - Generated %q"
          [signature, s.encrypter (hmacRFC2104 s.hasher s.key message)]) := by
  simp [Signer.Authenticate, getHMAC_eq, hne]

/-- The loop of `Validate` over entries whose values other than the signature are not empty. -/
theorem validateRange_of_others_nonempty :
    ∀ l : List (String × String), (∀ k v, (k, v) ∈ l → k ≠ "signature" → v ≠ "") →
      validateRange l
        = if ("signature", "") ∈ l then some (fmtErrorf "'%s' is empty" ["signature"]) else none
  | [], _ => by simp [validateRange]
  | (k, v) :: t, h => by
    have ht : ∀ k1 v1, (k1, v1) ∈ t → k1 ≠ "signature" → v1 ≠ "" :=
      fun k1 v1 hmem => h k1 v1 (List.mem_cons_of_mem _ hmem)
    by_cases hv : v = ""
    · have hk : k = "signature" := by
        by_contra hk
        exact h k v (List.mem_cons_self _ _) hk hv
      subst hv
      subst hk
      simp [validateRange]
    · have hne : ("signature", "") ≠ (k, v) := by
        intro he
        exact hv (congrArg Prod.snd he).symm
      simp only [validateRange, if_neg hv, validateRange_of_others_nonempty t ht,
        List.mem_cons, hne, false_or]

/-- The loop of `Validate` over a map whose values other than the signature are not empty. -/
theorem validateRange_of_signature (m : GoMap String)
    (h : ∀ k v, k ≠ "signature" → m.get? k = some v → v ≠ "") :
    validateRange m.entries
      = if m.get? "signature" = some "" then some (fmtErrorf "'%s' is empty" ["signature"])
        else none := by
  rw [validateRange_of_others_nonempty m.entries
    (fun k v hmem hk => h k v hk ((m.get?_eq_some_iff k v).2 hmem))]
  by_cases hs : m.get? "signature" = some ""
  · rw [if_pos hs, if_pos ((m.get?_eq_some_iff _ _).1 hs)]
  · rw [if_neg hs, if_neg (fun hmem => hs ((m.get?_eq_some_iff _ _).2 hmem))]

/-- The validation of the three extractors of the package looks at the signature only,
when the other values are not empty. -/
theorem Extractor.Validate_of_signature (ext : Extractor) (m1 m2 : GoMap String)
    (hkind : (∃ e, ext = .empty e) ∨ (∃ h, ext = .header h) ∨ (∃ q, ext = .query q))
    (hsig : m1.get? "signature" = m2.get? "signature")
    (h1 : ∀ k v, k ≠ "signature" → m1.get? k = some v → v ≠ "")
    (h2 : ∀ k v, k ≠ "signature" → m2.get? k = some v → v ≠ "") :
    ext.Validate m1 = ext.Validate m2 := by
  rcases hkind with ⟨e, rfl⟩ | ⟨h, rfl⟩ | ⟨q, rfl⟩
  · rfl
  · simp only [Extractor.Validate, HeaderExtractor.Validate, validateRange_of_signature m1 h1,
      validateRange_of_signature m2 h2, hsig]
  · simp only [Extractor.Validate, QueryExtractor.Validate, validateRange_of_signature m1 h1,
      validateRange_of_signature m2 h2, hsig]

/-- An extractor that has no output key `signature` gives the pipeline the empty string
for the signature. -/
theorem Extractor.index_signature_of_not_configured (ext : Extractor) (c : Context)
    (hnosig : (∃ e, ext = .empty e) ∨
      ∃ cfg, (ext = .header ⟨cfg⟩ ∨ ext = .query ⟨cfg⟩) ∧ cfg.get? "signature" = none) :
    (ext.Extract c).index "signature" = "" := by
  rcases hnosig with ⟨e, rfl⟩ | ⟨cfg, rfl | rfl, hcfg⟩
  · rfl
  · simp [Extractor.Extract, HeaderExtractor.Extract, GoMap.index, extractRange_empty_get?, hcfg]
  · simp [Extractor.Extract, QueryExtractor.Extract, GoMap.index, extractRange_empty_get?, hcfg]

/-- The response to a request that passes validation and whose signature the signer of the
service rejects. -/
theorem DataHandler_rejected_by_signer (services : GoMap service) (heap : Heap) (c : Context)
    (svc : service) (ext : Extractor) (s : Signer) (B : Bytes)
    (hs : services.get? (c.Param "service") = some svc) (hext : svc.ext = some ext)
    (hauth : svc.auth = some (.signer s))
    (hvalid : ext.Validate (ext.Extract c) = none) (hbody : c.GetRawData = .ok B)
    (hne : (ext.Extract c).index "signature" ≠ s.encrypter (hmacRFC2104 s.hasher s.key B)) :
    DataHandler services heap c =
      { response := .returns ⟨http.StatusUnauthorized,
          some (fmtErrorf "Signatures don't match. Received %q - Generated %q"
            [(ext.Extract c).index "signature",
              s.encrypter (hmacRFC2104 s.hasher s.key B)])⟩,
        heap := heap,
        calls := [.Extract, .Validate, .GetRawData,
          .Authenticate B ((ext.Extract c).index "signature")] } := by
  have ha := Signer.Authenticate_of_ne s B _ hne
  simp [DataHandler, hs, hext, hauth, hvalid, hbody, Authenticator.Authenticate_signer, ha]

/-! ## Facts about `Initialize` -/

/-- One turn of the loop of `Initialize` for a service whose three descriptors are there:
the service is registered when its three plugins can be built, and skipped otherwise. -/
theorem initializeRange_cons (host : Host) (conf : ServiceMap) (s : String)
    (rest : List String) (services : GoMap service) (heap : Heap) (serv : ServiceConfig)
    (e a w : SimpleConfig) (hget : conf.Get s = .ok (some serv))
    (he : serv.ExtConfig = some e) (ha : serv.AuthConfig = some a)
    (hw : serv.WriConfig = some w) :
    initializeRange host conf (s :: rest) services heap =
      match CreateExtractor e.Class e.Parameters, CreateAuthenticator a.Class a.Parameters,
        CreateWriter host.OpenFile heap w.Class w.Parameters with
      | .ok ext, .ok auth, .ok x =>
        initializeRange host conf rest
          (SetService services s (some ext) (some auth) (some x.1)) x.2
      | _, _, _ => initializeRange host conf rest services heap := by
  rw [initializeRange]
  simp only [hget, he, ha, hw]
  cases CreateExtractor e.Class e.Parameters <;>
    cases CreateAuthenticator a.Class a.Parameters <;>
    cases CreateWriter host.OpenFile heap w.Class w.Parameters <;> rfl

/-- The loop of `Initialize` over a configuration in which every service has its three
descriptors: it returns; a name outside the list keeps its binding; a listed service whose
three plugins can be built is registered with them; a listed service for which the
construction of a plugin fails is skipped, its name keeping the binding it had. -/
theorem initializeRange_complete (host : Host) (conf : ServiceMap) :
    ∀ (l : List String) (services : GoMap service) (heap : Heap), l.Nodup →
      (∀ s ∈ l, ∃ serv e a w, conf.Get s = .ok (some serv) ∧ serv.ExtConfig = some e ∧
        serv.AuthConfig = some a ∧ serv.WriConfig = some w) →
      (initializeRange host conf l services heap).result = .returns () ∧
      (∀ n, n ∉ l → (initializeRange host conf l services heap).services.get? n
        = services.get? n) ∧
      (∀ n ∈ l, ∀ serv e a w, conf.Get n = .ok (some serv) → serv.ExtConfig = some e →
        serv.AuthConfig = some a → serv.WriConfig = some w →
        (∀ ext auth, CreateExtractor e.Class e.Parameters = .ok ext →
          CreateAuthenticator a.Class a.Parameters = .ok auth →
          (∀ hp, ∃ x, CreateWriter host.OpenFile hp w.Class w.Parameters = .ok x) →
          ∃ addr, (initializeRange host conf l services heap).services.get? n
            = some { ext := some ext, auth := some auth, w := some addr }) ∧
        ((∃ err, CreateExtractor e.Class e.Parameters = .error err) ∨
          (∃ err, CreateAuthenticator a.Class a.Parameters = .error err) ∨
          (∀ hp, ∃ err, CreateWriter host.OpenFile hp w.Class w.Parameters = .error err) →
          (initializeRange host conf l services heap).services.get? n = services.get? n))
  | [], services, heap, _, _ => ⟨rfl, fun n _ => rfl, fun n hn => by simp at hn⟩
  | s :: rest, services, heap, hnd, hall => by
    simp only [List.nodup_cons] at hnd
    obtain ⟨serv, e, a, w, hget, he, ha, hw⟩ := hall s (List.mem_cons_self _ _)
    have hallrest : ∀ s1 ∈ rest, ∃ serv e a w, conf.Get s1 = .ok (some serv) ∧
        serv.ExtConfig = some e ∧ serv.AuthConfig = some a ∧ serv.WriConfig = some w :=
      fun s1 hs1 => hall s1 (List.mem_cons_of_mem _ hs1)
    have hstep := initializeRange_cons host conf s rest services heap serv e a w hget he ha hw
    -- the registry and the heap with which the loop goes on
    obtain ⟨services1, heap1, hgo, hreg⟩ : ∃ services1 heap1,
        initializeRange host conf (s :: rest) services heap
          = initializeRange host conf rest services1 heap1 ∧
        ((∃ ext auth x, CreateExtractor e.Class e.Parameters = .ok ext ∧
            CreateAuthenticator a.Class a.Parameters = .ok auth ∧
            CreateWriter host.OpenFile heap w.Class w.Parameters = .ok x ∧
            services1 = SetService services s (some ext) (some auth) (some x.1)) ∨
          (((∃ err, CreateExtractor e.Class e.Parameters = .error err) ∨
              (∃ err, CreateAuthenticator a.Class a.Parameters = .error err) ∨
              (∃ err, CreateWriter host.OpenFile heap w.Class w.Parameters = .error err)) ∧
            services1 = services)) := by
      rw [hstep]
      cases hce : CreateExtractor e.Class e.Parameters with
      | error err => exact ⟨services, heap, rfl, Or.inr ⟨Or.inl ⟨err, rfl⟩, rfl⟩⟩
      | ok ext =>
        cases hca : CreateAuthenticator a.Class a.Parameters with
        | error err => exact ⟨services, heap, rfl, Or.inr ⟨Or.inr (Or.inl ⟨err, rfl⟩), rfl⟩⟩
        | ok auth =>
          cases hcw : CreateWriter host.OpenFile heap w.Class w.Parameters with
          | error err =>
            exact ⟨services, heap, rfl, Or.inr ⟨Or.inr (Or.inr ⟨err, rfl⟩), rfl⟩⟩
          | ok x => exact ⟨_, x.2, rfl, Or.inl ⟨ext, auth, x, rfl, rfl, rfl, rfl⟩⟩
    have ih := initializeRange_complete host conf rest services1 heap1 hnd.2 hallrest
    have hother : ∀ n, n ≠ s → services1.get? n = services.get? n := by
      intro n hn
      rcases hreg with ⟨ext, auth, x, _, _, _, h1⟩ | ⟨_, h1⟩
      · rw [h1]
        simp [SetService, GoMap.get?_set, hn]
      · rw [h1]
    rw [hgo]
    refine ⟨ih.1, fun n hn => ?_, fun n hn serv1 e1 a1 w1 hget1 he1 ha1 hw1 => ?_⟩
    · simp only [List.mem_cons, not_or] at hn
      rw [ih.2.1 n hn.2, hother n hn.1]
    · rcases List.mem_cons.1 hn with rfl | hn
      · -- the service of this turn: the rest of the loop leaves its name alone
        have hs : serv1 = serv := by
          have := hget1.symm.trans hget
          simpa using this
        subst hs
        have he2 : e1 = e := Option.some.inj (he1.symm.trans he)
        have ha2 : a1 = a := Option.some.inj (ha1.symm.trans ha)
        have hw2 : w1 = w := Option.some.inj (hw1.symm.trans hw)
        subst he2
        subst ha2
        subst hw2
        rw [ih.2.1 n hnd.1]
        refine ⟨fun ext auth hce hca hcw => ?_, fun hfail => ?_⟩
        · rcases hreg with ⟨ext1, auth1, x, hce1, hca1, _, h1⟩ | ⟨hfail, _⟩
          · have hx1 : ext1 = ext := by
              have := hce1.symm.trans hce
              simpa using this
            have hx2 : auth1 = auth := by
              have := hca1.symm.trans hca
              simpa using this
            subst hx1
            subst hx2
            exact ⟨x.1, by rw [h1]; simp [SetService, GoMap.get?_set]⟩
          · rcases hfail with ⟨err, h⟩ | ⟨err, h⟩ | ⟨err, h⟩
            · rw [hce] at h; cases h
            · rw [hca] at h; cases h
            · obtain ⟨x, hx⟩ := hcw heap
              rw [hx] at h; cases h
        · rcases hreg with ⟨ext1, auth1, x, hce1, hca1, hcw1, _⟩ | ⟨_, h1⟩
          · rcases hfail with ⟨err, h⟩ | ⟨err, h⟩ | h
            · rw [hce1] at h; cases h
            · rw [hca1] at h; cases h
            · obtain ⟨err, herr⟩ := h heap
              rw [hcw1] at herr; cases herr
          · rw [h1]
      · have hns : n ≠ s := fun h => hnd.1 (h ▸ hn)
        obtain ⟨h1, h2⟩ := ih.2.2 n hn serv1 e1 a1 w1 hget1 he1 ha1 hw1
        refine ⟨h1, fun hfail => ?_⟩
        rw [h2 hfail, hother n hns]

/-- `Initialize` on a configuration that parses and in which every service has its three
descriptors returns nil. -/
theorem Initialize_returns_nil (host : Host) (services : GoMap service) (heap : Heap)
    (filepath cfgInline : String) (parser : Parser)
    (m : GoMap (Option ServiceConfig))
    (hp : CreateParser filepath cfgInline = some parser)
    (hparse : parser.Parse host NewServiceMap = (none, ⟨some m⟩))
    (hall : ∀ s serv, m.get? s = some serv → ∃ sc e a w, serv = some sc ∧
      sc.ExtConfig = some e ∧ sc.AuthConfig = some a ∧ sc.WriConfig = some w) :
    (Initialize host services heap filepath cfgInline).result = .returns none := by
  have hl : (ServiceMap.mk (some m)).List.Nodup := by
    rw [ServiceMap.List_eq_keys]
    exact m.nodup
  have hall1 : ∀ s ∈ (ServiceMap.mk (some m)).List, ∃ serv e a w,
      (ServiceMap.mk (some m)).Get s = .ok (some serv) ∧ serv.ExtConfig = some e ∧
        serv.AuthConfig = some a ∧ serv.WriConfig = some w := by
    intro s hs
    rw [ServiceMap.List_eq_keys] at hs
    obtain ⟨serv, hserv⟩ := (m.mem_keys_iff s).1 hs
    obtain ⟨sc, e, a, w, rfl, he, ha, hw⟩ := hall s serv hserv
    exact ⟨sc, e, a, w, by simp [ServiceMap.Get, hserv], he, ha, hw⟩
  have h := (initializeRange_complete host ⟨some m⟩ _ services heap hl hall1).1
  simp [Initialize, hp, hparse, h]

/-! ## Facts about the invariant of the registry -/

/-- The invariant of the registry, by lookup. -/
theorem allBound_iff (services : GoMap service) :
    allBound services = true ↔
      ∀ n svc, services.get? n = some svc →
        svc.ext.isSome = true ∧ svc.auth.isSome = true ∧ svc.w.isSome = true := by
  simp only [allBound, List.all_eq_true, Bool.and_eq_true, and_assoc]
  constructor
  · intro h n svc hget
    exact h (n, svc) ((services.get?_eq_some_iff n svc).1 hget)
  · intro h e he
    exact h e.1 e.2 ((services.get?_eq_some_iff e.1 e.2).2 he)

/-- The function `SetService` with three plugins keeps the invariant. -/
theorem allBound_SetService (services : GoMap service) (key : String) (ext : Extractor)
    (auth : Authenticator) (w : Nat) (h : allBound services = true) :
    allBound (SetService services key (some ext) (some auth) (some w)) = true := by
  rw [allBound_iff] at h ⊢
  intro n svc hget
  simp only [SetService, GoMap.get?_set] at hget
  by_cases hn : n = key
  · rw [if_pos hn] at hget
    cases hget
    exact ⟨rfl, rfl, rfl⟩
  · rw [if_neg hn] at hget
    exact h n svc hget

/-- The loop of `Initialize` keeps the invariant, however it ends. -/
theorem allBound_initializeRange (host : Host) (conf : ServiceMap) :
    ∀ (l : List String) (services : GoMap service) (heap : Heap),
      allBound services = true →
      allBound (initializeRange host conf l services heap).services = true
  | [], services, heap, h => by simpa [initializeRange] using h
  | s :: rest, services, heap, h => by
    have ih := fun services1 heap1 h1 =>
      allBound_initializeRange host conf rest services1 heap1 h1
    unfold initializeRange
    cases hget : conf.Get s with
    | error err => simpa using ih services heap h
    | ok o =>
      cases o with
      | none => simpa using h
      | some serv =>
        cases he : serv.ExtConfig with
        | none => simpa [he] using h
        | some extConfig =>
          cases hce : CreateExtractor extConfig.Class extConfig.Parameters with
          | error err => simpa [he, hce] using ih services heap h
          | ok newExt =>
            cases ha : serv.AuthConfig with
            | none => simpa [he, hce, ha] using h
            | some authConfig =>
              cases hca : CreateAuthenticator authConfig.Class authConfig.Parameters with
              | error err => simpa [he, hce, ha, hca] using ih services heap h
              | ok newAuth =>
                cases hw : serv.WriConfig with
                | none => simpa [he, hce, ha, hca, hw] using h
                | some wriConfig =>
                  cases hcw : CreateWriter host.OpenFile heap wriConfig.Class
                      wriConfig.Parameters with
                  | error err => simpa [he, hce, ha, hca, hw, hcw] using ih services heap h
                  | ok r =>
                    simpa [he, hce, ha, hca, hw, hcw] using
                      ih _ r.2 (allBound_SetService services s newExt newAuth r.1 h)

/-- The function `Initialize` keeps the invariant, however it ends. -/
theorem allBound_Initialize (host : Host) (services : GoMap service) (heap : Heap)
    (filepath cfgInline : String) (h : allBound services = true) :
    allBound (Initialize host services heap filepath cfgInline).services = true := by
  unfold Initialize
  cases hp : CreateParser filepath cfgInline with
  | none => simpa using h
  | some parser =>
    cases hparse : parser.Parse host NewServiceMap with
    | mk err conf =>
      cases err with
      | some e => simpa [hparse] using h
      | none =>
        have hl := allBound_initializeRange host conf conf.List services heap h
        simp only [hparse]
        cases hres : (initializeRange host conf conf.List services heap).result <;>
          simpa [hres] using hl

/-! ## Facts about `CloseWriters` -/

/-- The loop of `CloseWriters` leaves alone every object that is not a registered writer. -/
theorem closeRange_frame :
    ∀ (l : List (String × service)) (heap : Heap) (r : Nat),
      (∀ e ∈ l, e.2.w ≠ some r) → (closeRange l heap).2.obj r = heap.obj r
  | [], heap, r, _ => rfl
  | (n, v) :: rest, heap, r, h => by
    have hrest : ∀ e ∈ rest, e.2.w ≠ some r := fun e he => h e (List.mem_cons_of_mem _ he)
    cases hv : v.w with
    | none => simp [closeRange, hv]
    | some w =>
      have hne : r ≠ w := fun hr => h (n, v) (List.mem_cons_self _ _) (by simp [hv, hr])
      cases hc : (heap.obj w).Close with
      | mk out closed =>
        cases out with
        | returns u =>
          simp only [closeRange, hv, hc]
          rw [closeRange_frame rest (heap.set w closed) r hrest]
          simp [Heap.set, Function.update, hne]
        | panics reason => simp [closeRange, hv, hc, Heap.set, Function.update, hne]
        | blocks => simp [closeRange, hv, hc, Heap.set, Function.update, hne]

/-- The loop of `CloseWriters` over distinct writers whose `Close` returns: it returns, and every writer is closed. -/
theorem closeRange_returns :
    ∀ (l : List (String × service)) (heap : Heap),
      (∀ e ∈ l, ∃ r, e.2.w = some r ∧ ((heap.obj r).Close).1 = .returns ()) →
      (l.map (fun e => e.2.w)).Nodup →
      (closeRange l heap).1 = .returns () ∧
      ∀ e ∈ l, ∀ r, e.2.w = some r → (closeRange l heap).2.obj r = ((heap.obj r).Close).2
  | [], heap, _, _ => ⟨rfl, fun e he => by simp at he⟩
  | (n, v) :: rest, heap, h, hnd => by
    simp only [List.map_cons, List.nodup_cons] at hnd
    obtain ⟨w, hv, hret⟩ := h (n, v) (List.mem_cons_self _ _)
    have hv : v.w = some w := hv
    have hother : ∀ e ∈ rest, e.2.w ≠ some w := fun e he hw =>
      hnd.1 (List.mem_map.2 ⟨e, he, by simp [hw, hv]⟩)
    cases hc : (heap.obj w).Close with
    | mk out closed =>
      rw [hc] at hret
      simp only at hret
      subst hret
      have hsame : ∀ r, r ≠ w → (heap.set w closed).obj r = heap.obj r := fun r hr => by
        simp [Heap.set, Function.update, hr]
      have hrest : ∀ e ∈ rest, ∃ r, e.2.w = some r ∧
          (((heap.set w closed).obj r).Close).1 = .returns () := by
        intro e he
        obtain ⟨r, hr, hcr⟩ := h e (List.mem_cons_of_mem _ he)
        have hrw : r ≠ w := fun heq => hother e he (by rw [hr, heq])
        exact ⟨r, hr, by rw [hsame r hrw]; exact hcr⟩
      have ih := closeRange_returns rest (heap.set w closed) hrest hnd.2
      have hstep : closeRange ((n, v) :: rest) heap = closeRange rest (heap.set w closed) := by
        simp [closeRange, hv, hc]
      rw [hstep]
      refine ⟨ih.1, fun e he r hr => ?_⟩
      rcases List.mem_cons.1 he with rfl | he
      · have hrw : r = w := by
          have : some r = some w := by rw [← hr, ← hv]
          exact Option.some.inj this
        subst hrw
        rw [closeRange_frame rest _ r hother, hc]
        simp [Heap.set]
      · have hrw : r ≠ w := fun heq => hother e he (by rw [hr, heq])
        rw [ih.2 e he r hr, hsame r hrw]

/-- A `MemoryWriter` without messages stays so through the loop of `CloseWriters`. -/
theorem closeRange_keeps_cleared :
    ∀ (l : List (String × service)) (heap : Heap) (r : Nat),
      heap.obj r = .memory { Messages := [] } →
      (closeRange l heap).2.obj r = .memory { Messages := [] }
  | [], heap, r, h => h
  | (n, v) :: rest, heap, r, h => by
    cases hv : v.w with
    | none => simpa [closeRange, hv] using h
    | some w =>
      have hstep : (heap.set w ((heap.obj w).Close).2).obj r = .memory { Messages := [] } := by
        by_cases hr : r = w
        · subst hr
          simp [Heap.set, h, Writer.Close, MemoryWriter.Close]
        · simpa [Heap.set, Function.update, hr] using h
      cases hc : (heap.obj w).Close with
      | mk out closed =>
        rw [hc] at hstep
        cases out with
        | returns u =>
          simp only [closeRange, hv, hc]
          exact closeRange_keeps_cleared rest _ r hstep
        | panics reason => simpa [closeRange, hv, hc] using hstep
        | blocks => simpa [closeRange, hv, hc] using hstep

/-- When the loop of `CloseWriters` returns, every `MemoryWriter` it met is without messages. -/
theorem closeRange_clears_memory :
    ∀ (l : List (String × service)) (heap : Heap),
      (closeRange l heap).1 = .returns () →
      ∀ e ∈ l, ∀ r mw, e.2.w = some r → heap.obj r = .memory mw →
        (closeRange l heap).2.obj r = .memory { Messages := [] }
  | [], heap, _, e, he => by simp at he
  | (n, v) :: rest, heap, hret, e, he => by
    intro r mw hr hmem
    cases hv : v.w with
    | none => simp [closeRange, hv] at hret
    | some w =>
      cases hc : (heap.obj w).Close with
      | mk out closed =>
        cases out with
        | panics reason => simp [closeRange, hv, hc] at hret
        | blocks => simp [closeRange, hv, hc] at hret
        | returns u =>
          have hstep : closeRange ((n, v) :: rest) heap
              = closeRange rest (heap.set w closed) := by
            simp [closeRange, hv, hc]
          rw [hstep] at hret ⊢
          by_cases hrw : r = w
          · subst hrw
            have hclosed : closed = .memory { Messages := [] } := by
              have := congrArg Prod.snd hc
              simpa [hmem, Writer.Close, MemoryWriter.Close] using this.symm
            exact closeRange_keeps_cleared rest _ r (by simp [Heap.set, hclosed])
          · rcases List.mem_cons.1 he with rfl | he
            · exact absurd (Option.some.inj (by rw [← hr, ← hv])) hrw
            · exact closeRange_clears_memory rest _ hret e he r mw hr
                (by simpa [Heap.set, Function.update, hrw] using hmem)

/-! ## Facts about `filepath.Ext` -/

/-- The loop of `filepath.Ext` over characters without dot or separator and then a dot. -/
theorem extScan_append_dot :
    ∀ (b rest passed : List Char), (∀ ch ∈ b, ch ≠ '/' ∧ ch ≠ '.') →
      extScan (b ++ '.' :: rest) passed = '.' :: (b.reverse ++ passed)
  | [], rest, passed, _ => by simp [extScan]
  | x :: b, rest, passed, h => by
    have hx := h x (List.mem_cons_self _ _)
    have hb : ∀ ch ∈ b, ch ≠ '/' ∧ ch ≠ '.' := fun ch hch => h ch (List.mem_cons_of_mem _ hch)
    simp [extScan, hx.1, hx.2, extScan_append_dot b rest (x :: passed) hb]

/-- When the loop of `filepath.Ext` finds an extension, it has met a dot. -/
theorem extScan_ne_nil :
    ∀ (r passed : List Char), extScan r passed ≠ [] →
      ∃ b rest, r = b ++ '.' :: rest ∧ extScan r passed = '.' :: (b.reverse ++ passed)
  | [], passed, h => by simp [extScan] at h
  | x :: r, passed, h => by
    by_cases h1 : x = '/'
    · simp [extScan, h1] at h
    · by_cases h2 : x = '.'
      · subst h2
        exact ⟨[], r, rfl, by simp [extScan]⟩
      · have hrec : extScan (x :: r) passed = extScan r (x :: passed) := by
          simp [extScan, h1, h2]
        rw [hrec] at h
        obtain ⟨b, rest, hr, he⟩ := extScan_ne_nil r (x :: passed) h
        exact ⟨x :: b, rest, by simp [hr], by rw [hrec, he]; simp⟩

/-- The extension of a path is `.` followed by `body`, where `body` has neither a dot nor
a separator, if and only if the path ends with that. -/
theorem filepath.Ext_eq_iff (f : String) (body : List Char)
    (hb : ∀ ch ∈ body, ch ≠ '/' ∧ ch ≠ '.') :
    filepath.Ext f = String.mk ('.' :: body) ↔
      strings.HasSuffix f (String.mk ('.' :: body)) = true := by
  have hmk : String.mk (extScan f.data.reverse []) = String.mk ('.' :: body) ↔
      extScan f.data.reverse [] = '.' :: body :=
    ⟨fun h => congrArg String.data h, fun h => by rw [h]⟩
  simp only [filepath.Ext, strings.HasSuffix, List.isSuffixOf_iff_suffix, String.toList, hmk]
  constructor
  · intro h
    have hne : extScan f.data.reverse [] ≠ [] := by rw [h]; simp
    obtain ⟨b, rest, hr, he⟩ := extScan_ne_nil _ _ hne
    rw [h] at he
    have hbody : body = b.reverse := by simpa using he
    have hf : f.data = rest.reverse ++ '.' :: body := by
      have := congrArg List.reverse hr
      simpa [hbody] using this
    exact ⟨rest.reverse, hf.symm⟩
  · rintro ⟨p, hp⟩
    have hrev : f.data.reverse = body.reverse ++ '.' :: p.reverse := by
      rw [← hp]
      simp
    rw [hrev, extScan_append_dot body.reverse p.reverse []
      (fun ch hch => hb ch (List.mem_reverse.1 hch))]
    simp

/-- The extension of a path is `.json` exactly when the path ends in `.json`. -/
theorem filepath.Ext_json (f : String) :
    filepath.Ext f = ".json" ↔ strings.HasSuffix f ".json" = true :=
  filepath.Ext_eq_iff f ['j', 's', 'o', 'n'] (by decide)

/-- The extension of a path is `.yaml` exactly when the path ends in `.yaml`. -/
theorem filepath.Ext_yaml (f : String) :
    filepath.Ext f = ".yaml" ↔ strings.HasSuffix f ".yaml" = true :=
  filepath.Ext_eq_iff f ['y', 'a', 'm', 'l'] (by decide)

/-! ## The claims -/

/-- The status code of `DataHandler` when the plugins of the binding are there and `Write`
returns.  For every registry, heap and request: 404 when
the service name is not registered; otherwise 400 when `Validate(Extract(request))` returns
an error; otherwise 401 when reading the body fails; otherwise 401 when
`Authenticate(B, fields["signature"])` returns an error, the signature being the empty
string when the key is absent; otherwise 500 when `Write(string(B))` returns an error;
otherwise, `Write` returning nil, 200.  In each case the calls made are exactly the steps
up to the one that decides: no later step runs. -/
theorem DataHandler_status (services : GoMap service) (heap : Heap) (c : Context) :
    (services.get? (c.Param "service") = none →
      (DataHandler services heap c).response = .returns ⟨http.StatusNotFound,
        some (fmtErrorf "Service %q not found." [c.Param "service"])⟩ ∧
      (DataHandler services heap c).calls = []) ∧
    (∀ svc ext, services.get? (c.Param "service") = some svc → svc.ext = some ext →
      (∀ err, ext.Validate (ext.Extract c) = some err →
        (DataHandler services heap c).response = .returns ⟨http.StatusBadRequest, some err⟩ ∧
        (DataHandler services heap c).calls = [.Extract, .Validate]) ∧
      (ext.Validate (ext.Extract c) = none →
        (∀ err, c.GetRawData = .error err →
          (DataHandler services heap c).response
            = .returns ⟨http.StatusUnauthorized, some err⟩ ∧
          (DataHandler services heap c).calls = [.Extract, .Validate, .GetRawData]) ∧
        (∀ B auth, c.GetRawData = .ok B → svc.auth = some auth →
          ((ext.Extract c).get? "signature" = none → (ext.Extract c).index "signature" = "") ∧
          (∀ err, auth.Authenticate B ((ext.Extract c).index "signature") = some err →
            (DataHandler services heap c).response
              = .returns ⟨http.StatusUnauthorized, some err⟩ ∧
            (DataHandler services heap c).calls = [.Extract, .Validate, .GetRawData,
              .Authenticate B ((ext.Extract c).index "signature")]) ∧
          (auth.Authenticate B ((ext.Extract c).index "signature") = none →
            ∀ w, svc.w = some w →
              (∀ err, ((heap.obj w).Write (stringOf B)).1 = .returns (some err) →
                (DataHandler services heap c).response
                  = .returns ⟨http.StatusInternalServerError, some err⟩ ∧
                (DataHandler services heap c).calls = [.Extract, .Validate, .GetRawData,
                  .Authenticate B ((ext.Extract c).index "signature"),
                  .Write (stringOf B)]) ∧
              (((heap.obj w).Write (stringOf B)).1 = .returns none →
                (DataHandler services heap c).response = .returns ⟨http.StatusOK, none⟩ ∧
                (DataHandler services heap c).calls = [.Extract, .Validate, .GetRawData,
                  .Authenticate B ((ext.Extract c).index "signature"),
                  .Write (stringOf B)]))))) := by
  refine ⟨fun hs => ?_, fun svc ext hs hext => ⟨fun err hv => ?_, fun hv =>
    ⟨fun err hb => ?_, fun B auth hb hauth => ⟨fun hsig => ?_, fun err ha => ?_,
      fun ha w hw => ⟨fun err hwr => ?_, fun hwr => ?_⟩⟩⟩⟩⟩
  · simp [DataHandler, hs]
  · simp [DataHandler, hs, hext, hv]
  · simp [DataHandler, hs, hext, hv, hb]
  · simp [GoMap.index, hsig]
  · simp [DataHandler, hs, hext, hv, hb, hauth, ha]
  · simp [DataHandler, hs, hext, hv, hb, hauth, ha, hw, hwr]
  · simp [DataHandler, hs, hext, hv, hb, hauth, ha, hw, hwr]

set_option maxRecDepth 100000 in
/-- One run for each status: a name that is not registered (404), the request of
`TestDataHandler` without its signature (400), a body that cannot be read (401), a wrong
signature (401), a writer that fails (500), and the request of `TestDataHandler` (200). -/
theorem DataHandler_status_witness :
    (DataHandler GoMap.empty memoryHeap handlerTestContext).response
      = .returns ⟨404, some (fmtErrorf "Service %q not found." ["test"])⟩ ∧
    (DataHandler handlerTestServices memoryHeap unsignedTestContext).response
      = .returns ⟨400, some (fmtErrorf "'%s' is empty" ["signature"])⟩ ∧
    (DataHandler handlerTestServices memoryHeap
      { handlerTestContext with body := .error (errorsNew "unexpected EOF") }).response
      = .returns ⟨401, some (errorsNew "unexpected EOF")⟩ ∧
    (DataHandler handlerTestServices memoryHeap forgedTestContext).response
      = .returns ⟨401, some (fmtErrorf "Signatures don't match. Received %q - Generated %q"
          ["Wrong signature", "GXjQXzGexUuSH444qEyMI-b9Lif_Uq39gElhs_7PMVY="])⟩ ∧
    (DataHandler handlerTestServices failingHeap handlerTestContext).response
      = .returns ⟨500, some (errorsNew "no space left on device")⟩ ∧
    (DataHandler handlerTestServices memoryHeap handlerTestContext).response
      = .returns ⟨200, none⟩ := by
  have hauth : (Authenticator.signer ⟨bytesOf "magicKey", sha256.New,
      base64.URLEncoding.EncodeToString⟩).Authenticate (bytesOf "test message")
        "GXjQXzGexUuSH444qEyMI-b9Lif_Uq39gElhs_7PMVY=" = none := by
    rw [Authenticator.Authenticate_signer, Signer.Authenticate_eq_none_iff]
    exact signature_handler_test.symm
  have hforged : (Authenticator.signer ⟨bytesOf "magicKey", sha256.New,
      base64.URLEncoding.EncodeToString⟩).Authenticate (bytesOf "test message")
        "Wrong signature" = some (fmtErrorf "Signatures don't match. Received %q - Generated %q"
          ["Wrong signature", "GXjQXzGexUuSH444qEyMI-b9Lif_Uq39gElhs_7PMVY="]) := by
    rw [Authenticator.Authenticate_signer]
    simp only [Signer.Authenticate, getHMAC_eq]
    rw [signature_handler_test]
    decide
  refine ⟨?_, ?_, ?_, ?_, ?_, ?_⟩
  · exact ((DataHandler_status GoMap.empty memoryHeap handlerTestContext).1 rfl).1
  · exact (((DataHandler_status handlerTestServices memoryHeap unsignedTestContext).2
      (handlerTestService 0) _ rfl rfl).1 _ rfl).1
  · exact (((DataHandler_status handlerTestServices memoryHeap
      { handlerTestContext with body := .error (errorsNew "unexpected EOF") }).2
      (handlerTestService 0) _ rfl rfl).2 rfl).1 _ rfl |>.1
  · exact ((((DataHandler_status handlerTestServices memoryHeap forgedTestContext).2
      (handlerTestService 0) _ rfl rfl).2 rfl).2 _ _ rfl rfl).2.1 _ hforged |>.1
  · exact ((((DataHandler_status handlerTestServices failingHeap handlerTestContext).2
      (handlerTestService 0) _ rfl rfl).2 rfl).2 _ _ rfl rfl).2.2 hauth 0 rfl |>.1 _ rfl |>.1
  · exact ((((DataHandler_status handlerTestServices memoryHeap handlerTestContext).2
      (handlerTestService 0) _ rfl rfl).2 rfl).2 _ _ rfl rfl).2.2 hauth 0 rfl |>.2 rfl |>.1

set_option maxRecDepth 100000 in
/-- C1, on the code: the service of `TestDataHandler` with a `FileWriter` on a file that
the system refuses to extend, and the signed request of the test, twice.  The first
request is answered 200: `Write` hands the message over and returns nil, and the goroutine
returns on the error of the append.  For the second request `Write` never returns, the
goroutine no longer receives: `DataHandler` has made its five calls and ends without any
status, neither 500 nor 200. -/
theorem DataHandler_blocks_after_failed_append :
    (DataHandler handlerTestServices faultyFileHeap handlerTestContext).response
      = .returns ⟨200, none⟩ ∧
    (DataHandler handlerTestServices
      (DataHandler handlerTestServices faultyFileHeap handlerTestContext).heap
      handlerTestContext).response = .blocks ∧
    (DataHandler handlerTestServices
      (DataHandler handlerTestServices faultyFileHeap handlerTestContext).heap
      handlerTestContext).calls
      = [.Extract, .Validate, .GetRawData,
        .Authenticate (bytesOf "test message") "GXjQXzGexUuSH444qEyMI-b9Lif_Uq39gElhs_7PMVY=",
        .Write "test message"] := by
  decide

/-- C2: for every registry, heap and request, when `DataHandler` responds 404, 400 or 401
no `Write` has been called and the heap, hence the state of every writer, is unchanged; a
request for a name that is not registered gets 404 and no call is made at all. -/
theorem DataHandler_rejected_writes_nothing (services : GoMap service) (heap : Heap)
    (c : Context) :
    (∀ resp, (DataHandler services heap c).response = .returns resp →
      resp.status = http.StatusNotFound ∨ resp.status = http.StatusBadRequest ∨
        resp.status = http.StatusUnauthorized →
      (DataHandler services heap c).heap = heap ∧
      ∀ content, Call.Write content ∉ (DataHandler services heap c).calls) ∧
    (services.get? (c.Param "service") = none →
      (DataHandler services heap c).response = .returns ⟨http.StatusNotFound,
        some (fmtErrorf "Service %q not found." [c.Param "service"])⟩ ∧
      (DataHandler services heap c).calls = [] ∧
      (DataHandler services heap c).heap = heap) := by
  refine ⟨fun resp hresp hstatus => ?_, fun hs => by simp [DataHandler, hs]⟩
  cases hs : services.get? (c.Param "service") with
  | none => simp [DataHandler, hs]
  | some svc =>
    cases hext : svc.ext with
    | none => simp [DataHandler, hs, hext]
    | some ext =>
      cases hv : ext.Validate (ext.Extract c) with
      | some err => simp [DataHandler, hs, hext, hv]
      | none =>
        cases hb : c.GetRawData with
        | error err => simp [DataHandler, hs, hext, hv, hb]
        | ok B =>
          cases hauth : svc.auth with
          | none => simp [DataHandler, hs, hext, hv, hb, hauth]
          | some auth =>
            cases ha : auth.Authenticate B ((ext.Extract c).index "signature") with
            | some err => simp [DataHandler, hs, hext, hv, hb, hauth, ha]
            | none =>
              cases hw : svc.w with
              | none => simp [DataHandler, hs, hext, hv, hb, hauth, ha, hw] at hresp
              | some w =>
                cases hwr : ((heap.obj w).Write (stringOf B)).1 with
                | returns o =>
                  cases o with
                  | none =>
                    simp [DataHandler, hs, hext, hv, hb, hauth, ha, hw, hwr] at hresp
                    subst hresp
                    simp at hstatus
                  | some err =>
                    simp [DataHandler, hs, hext, hv, hb, hauth, ha, hw, hwr] at hresp
                    subst hresp
                    simp at hstatus
                | panics reason =>
                  simp [DataHandler, hs, hext, hv, hb, hauth, ha, hw, hwr] at hresp
                | blocks => simp [DataHandler, hs, hext, hv, hb, hauth, ha, hw, hwr] at hresp

/-- The request of `TestDataHandler` without its signature is answered 400: the heap stays
as it was and the body is not written. -/
theorem DataHandler_rejected_writes_nothing_witness :
    (DataHandler handlerTestServices memoryHeap unsignedTestContext).heap = memoryHeap ∧
    Call.Write "test message" ∉
      (DataHandler handlerTestServices memoryHeap unsignedTestContext).calls :=
  have h := (DataHandler_rejected_writes_nothing handlerTestServices memoryHeap
    unsignedTestContext).1 ⟨400, some (fmtErrorf "'%s' is empty" ["signature"])⟩ rfl
    (Or.inr (Or.inl rfl))
  ⟨h.1, h.2 "test message"⟩

/-- C3: for every key, every hash function of `hashFuncs` (sha1, sha256), every encoder of
`encryptFuncs` (hex, base64.URL, base64.RawURL) and every message `M`, `NewSigner` builds a
`Signer` and that signer accepts the encoded HMAC (RFC 2104) of `M` under the key:
`Authenticate` returns nil. -/
theorem Signer_accepts_reference_signature (params : GoMap String)
    (key hasherP encrypterP : String) (hashF : HashFunc) (encryptF : Bytes → String) (M : Bytes)
    (hk : params.get? "Key" = some key) (hh : params.get? "Hasher" = some hasherP)
    (he : params.get? "Encrypter" = some encrypterP)
    (hhash : (hasherP, hashF) ∈ [("sha1", sha1.New), ("sha256", sha256.New)])
    (henc : (encrypterP, encryptF) ∈ [("hex", hex.EncodeToString),
      ("base64.URL", base64.URLEncoding.EncodeToString),
      ("base64.RawURL", base64.RawURLEncoding.EncodeToString)]) :
    ∃ s, NewSigner params = .ok s ∧
      s.Authenticate M (encryptF (hmacRFC2104 hashF (bytesOf key) M)) = none := by
  have hhash1 : hashFuncs.get? hasherP = some hashF := by
    rw [hashFuncs_get?]
    simp only [List.mem_cons, Prod.mk.injEq, List.mem_singleton, List.not_mem_nil, or_false]
      at hhash
    rcases hhash with ⟨h1, h2⟩ | ⟨h1, h2⟩ <;> subst h1 <;> subst h2 <;> simp
  have henc1 : encryptFuncs.get? encrypterP = some encryptF := by
    rw [encryptFuncs_get?]
    simp only [List.mem_cons, Prod.mk.injEq, List.mem_singleton, List.not_mem_nil, or_false]
      at henc
    rcases henc with ⟨h1, h2⟩ | ⟨h1, h2⟩ | ⟨h1, h2⟩ <;> subst h1 <;> subst h2 <;> simp
  refine ⟨_, NewSigner_eq_ok params key hasherP encrypterP hashF encryptF hk hh he hhash1 henc1, ?_⟩
  exact (Signer.Authenticate_eq_none_iff _ M _).2 rfl

/-- The case of `TestSigner_Authenticate`: key magickey, sha1, base64.RawURL, the message
`Example message` and the signature `eZIp7BDQLn3PuZrDPWSlW3x6dgo`. -/
theorem Signer_accepts_reference_signature_witness :
    ∃ s, NewSigner (GoMap.ofList [("Key", "magickey"), ("Hasher", "sha1"),
        ("Encrypter", "base64.RawURL")]) = .ok s ∧
      s.Authenticate (bytesOf "Example message") "eZIp7BDQLn3PuZrDPWSlW3x6dgo" = none := by
  have h := Signer_accepts_reference_signature
    (GoMap.ofList [("Key", "magickey"), ("Hasher", "sha1"), ("Encrypter", "base64.RawURL")])
    "magickey" "sha1" "base64.RawURL" sha1.New base64.RawURLEncoding.EncodeToString
    (bytesOf "Example message") (by decide) (by decide) (by decide) (by simp) (by simp)
  rw [signature_sha1_rawurl] at h
  exact h

/-- C4: for every `Signer`, message `M` and signature `s`, `Authenticate` returns nil if
and only if `s` equals the encoded HMAC of `M`, character for character; every other
string is rejected with an error. -/
theorem Signer_accepts_only_exact_signature (s : Signer) (M : Bytes) (signature : String) :
    (s.Authenticate M signature = none ↔
      signature = s.encrypter (hmacRFC2104 s.hasher s.key M)) ∧
    (signature ≠ s.encrypter (hmacRFC2104 s.hasher s.key M) →
      ∃ err, s.Authenticate M signature = some err) := by
  refine ⟨Signer.Authenticate_eq_none_iff s M signature, fun hne => ?_⟩
  cases h : s.Authenticate M signature with
  | some err => exact ⟨err, rfl⟩
  | none => exact absurd ((Signer.Authenticate_eq_none_iff s M signature).1 h) hne

/-- Rejected signatures: the one of `TestSigner_Invalid`; a valid base64 signature with its
last bit flipped; a valid hexadecimal signature in upper case; a valid unpadded signature
with padding added, and a valid padded one with its padding removed. -/
theorem Signer_accepts_only_exact_signature_witness :
    (∃ err, (Signer.mk (bytesOf "magickey") sha256.New
      base64.URLEncoding.EncodeToString).Authenticate (bytesOf "Example message")
        "Wrong signature" = some err) ∧
    (∃ err, (Signer.mk (bytesOf "magickey") sha1.New
      base64.RawURLEncoding.EncodeToString).Authenticate (bytesOf "Example message")
        "eZIp7BDQLn3PuZrDPWSlW3x6dgp" = some err) ∧
    (∃ err, (Signer.mk (bytesOf "magickey") sha1.New
      hex.EncodeToString).Authenticate (bytesOf "Example message")
        "799229EC10D02E7DCFB99AC33D64A55B7C7A760A" = some err) ∧
    (∃ err, (Signer.mk (bytesOf "magickey") sha1.New
      base64.RawURLEncoding.EncodeToString).Authenticate (bytesOf "Example message")
        "eZIp7BDQLn3PuZrDPWSlW3x6dgo=" = some err) ∧
    (∃ err, (Signer.mk (bytesOf "magickey") sha256.New
      base64.URLEncoding.EncodeToString).Authenticate (bytesOf "Example message")
        "T74tLOfKmtWHV660tkaAzoNPCWXeAWYy8lD5PUiEdqg" = some err) :=
  ⟨(Signer_accepts_only_exact_signature _ _ _).2 (by dsimp only; rw [signature_sha256_url]; decide),
    (Signer_accepts_only_exact_signature _ _ _).2 (by dsimp only; rw [signature_sha1_rawurl]; decide),
    (Signer_accepts_only_exact_signature _ _ _).2 (by dsimp only; rw [signature_sha1_hex]; decide),
    (Signer_accepts_only_exact_signature _ _ _).2 (by dsimp only; rw [signature_sha1_rawurl]; decide),
    (Signer_accepts_only_exact_signature _ _ _).2 (by dsimp only; rw [signature_sha256_url]; decide)⟩

/-- C5: a service registered with the extractor `HeaderExtractor{signature: h}`, a `Signer`
with any key, a supported hash and a supported encoder, and a `MemoryWriter`; a request for
it with body `B` whose header `h` is the encoded HMAC of `B`.  The response is 200 and the
messages of the writer are afterwards the messages it had, followed by `string(B)`; no
other writer changes. -/
theorem DataHandler_end_to_end_success (services : GoMap service) (heap : Heap) (c : Context)
    (h key : String) (hashF : HashFunc) (encryptF : Bytes → String) (w : Nat)
    (mw : MemoryWriter) (B : Bytes)
    (hhash : hashF = sha1.New ∨ hashF = sha256.New)
    (henc : encryptF = hex.EncodeToString ∨ encryptF = base64.URLEncoding.EncodeToString ∨
      encryptF = base64.RawURLEncoding.EncodeToString)
    (hs : services.get? (c.Param "service") = some
      { ext := some (.header ⟨GoMap.ofList [("signature", h)]⟩),
        auth := some (.signer ⟨bytesOf key, hashF, encryptF⟩),
        w := some w })
    (hmw : heap.obj w = .memory mw)
    (hbody : c.GetRawData = .ok B)
    (hsig : c.headers h = some (encryptF (hmacRFC2104 hashF (bytesOf key) B))) :
    (DataHandler services heap c).response = .returns ⟨http.StatusOK, none⟩ ∧
    (DataHandler services heap c).heap.obj w
      = .memory { Messages := mw.GetMessages ++ [stringOf B] } ∧
    ∀ r, r ≠ w → (DataHandler services heap c).heap.obj r = heap.obj r := by
  have hne := encoded_hmac_ne_empty hashF encryptF (bytesOf key) B hhash henc
  have hget : c.GetHeader h = encryptF (hmacRFC2104 hashF (bytesOf key) B) := by
    simp [Context.GetHeader, hsig]
  have hex : (Extractor.header ⟨GoMap.ofList [("signature", h)]⟩).Extract c
      = GoMap.empty.set "signature" (encryptF (hmacRFC2104 hashF (bytesOf key) B)) := by
    simp [Extractor.Extract, HeaderExtractor.Extract, GoMap.ofList, GoMap.set, GoMap.empty,
      extractRange, hget]
  have hval : (Extractor.header ⟨GoMap.ofList [("signature", h)]⟩).Validate
      (GoMap.empty.set "signature" (encryptF (hmacRFC2104 hashF (bytesOf key) B))) = none := by
    simp [Extractor.Validate, HeaderExtractor.Validate, GoMap.set, GoMap.empty, validateRange,
      hne]
  have hidx : (GoMap.empty.set "signature"
      (encryptF (hmacRFC2104 hashF (bytesOf key) B))).index "signature"
        = encryptF (hmacRFC2104 hashF (bytesOf key) B) := by
    simp [GoMap.index, GoMap.get?_set]
  have hauth : (Authenticator.signer ⟨bytesOf key, hashF, encryptF⟩).Authenticate B
      (encryptF (hmacRFC2104 hashF (bytesOf key) B)) = none := by
    rw [Authenticator.Authenticate_signer, Signer.Authenticate_eq_none_iff]
  refine ⟨?_, ?_, ?_⟩
  · simp [DataHandler, hs, hex, hval, hbody, hidx, hauth, hmw, Writer.Write, MemoryWriter.Write]
  · simp [DataHandler, hs, hex, hval, hbody, hidx, hauth, hmw, Writer.Write, MemoryWriter.Write,
      Heap.set, MemoryWriter.GetMessages]
  · intro r hr
    simp [DataHandler, hs, hex, hval, hbody, hidx, hauth, hmw, Writer.Write, MemoryWriter.Write,
      Heap.set, Function.update, hr]

/-- The run of `TestDataHandler`: response 200 and the messages of the writer are exactly
`test message`. -/
theorem DataHandler_end_to_end_success_witness :
    (DataHandler handlerTestServices memoryHeap handlerTestContext).response
      = .returns ⟨200, none⟩ ∧
    (DataHandler handlerTestServices memoryHeap handlerTestContext).heap.obj 0
      = .memory { Messages := ["test message"] } := by
  have h := DataHandler_end_to_end_success handlerTestServices memoryHeap handlerTestContext
    "x-signature" "magicKey" sha256.New base64.URLEncoding.EncodeToString 0 ⟨[]⟩
    (bytesOf "test message") (Or.inr rfl) (Or.inr (Or.inl rfl)) rfl rfl rfl
    (by rw [signature_handler_test]; rfl)
  exact ⟨h.1, h.2.1⟩

/-- C6: a service whose extractor is a `HeaderExtractor` (a `QueryExtractor`) and a request
that lacks one of the configured headers (query parameters): `Validate(Extract(request))`
returns an error, `DataHandler` responds 400 with it, and the heap, hence the messages of
the writer of the service, is unchanged. -/
theorem DataHandler_missing_field_is_bad_request (services : GoMap service) (heap : Heap)
    (c : Context) (svc : service) (ext : Extractor) (cfg : GoMap String) (k name : String)
    (hs : services.get? (c.Param "service") = some svc) (hext : svc.ext = some ext)
    (hcfg : (k, name) ∈ cfg.entries)
    (habs : (ext = .header ⟨cfg⟩ ∧ c.headers name = none) ∨
      (ext = .query ⟨cfg⟩ ∧ c.query name = none)) :
    (∃ err, ext.Validate (ext.Extract c) = some err ∧
      (DataHandler services heap c).response = .returns ⟨http.StatusBadRequest, some err⟩) ∧
    (DataHandler services heap c).heap = heap := by
  have hverr : ∃ err, ext.Validate (ext.Extract c) = some err := by
    rcases habs with ⟨he, hnone⟩ | ⟨he, hnone⟩ <;> subst he
    · exact validate_extract_missing c.GetHeader cfg k name hcfg
        (by simp [Context.GetHeader, hnone])
    · exact validate_extract_missing c.Query cfg k name hcfg (by simp [Context.Query, hnone])
  obtain ⟨err, herr⟩ := hverr
  exact ⟨⟨err, herr, by simp [DataHandler, hs, hext, herr]⟩, by simp [DataHandler, hs, hext, herr]⟩

/-- The request of `TestDataHandler` without its signature header: 400, and the writer
keeps its empty sequence. -/
theorem DataHandler_missing_field_is_bad_request_witness :
    (∃ err, (DataHandler handlerTestServices memoryHeap unsignedTestContext).response
      = .returns ⟨400, some err⟩) ∧
    (DataHandler handlerTestServices memoryHeap unsignedTestContext).heap.obj 0
      = .memory { Messages := [] } := by
  have h := DataHandler_missing_field_is_bad_request handlerTestServices memoryHeap
    unsignedTestContext (handlerTestService 0) _ (GoMap.ofList [("signature", "x-signature")])
    "signature" "x-signature" rfl rfl (by decide) (Or.inl ⟨rfl, rfl⟩)
  obtain ⟨⟨err, _, hresp⟩, hheap⟩ := h
  exact ⟨⟨err, hresp⟩, by rw [hheap]; rfl⟩

/-- C7: `Extract` of a `HeaderExtractor` (of a `QueryExtractor`) returns, for every
request, a map that has exactly the keys of the configuration and that maps the output key
of each configured pair to the request header (query parameter) of the configured name, or
to the empty string when the request has none; a value present under the configured name
comes back unchanged. -/
theorem Extract_maps_configured_keys (cfg : GoMap String) (c : Context) :
    ((∀ k, k ∈ ((HeaderExtractor.mk cfg).Extract c).keys ↔ k ∈ cfg.keys) ∧
      (∀ k name, (k, name) ∈ cfg.entries →
        ((HeaderExtractor.mk cfg).Extract c).get? k = some ((c.headers name).getD "")) ∧
      (∀ k name v, (k, name) ∈ cfg.entries → c.headers name = some v →
        ((HeaderExtractor.mk cfg).Extract c).index k = v)) ∧
    ((∀ k, k ∈ ((QueryExtractor.mk cfg).Extract c).keys ↔ k ∈ cfg.keys) ∧
      (∀ k name, (k, name) ∈ cfg.entries →
        ((QueryExtractor.mk cfg).Extract c).get? k = some ((c.query name).getD "")) ∧
      (∀ k name v, (k, name) ∈ cfg.entries → c.query name = some v →
        ((QueryExtractor.mk cfg).Extract c).index k = v)) := by
  have key : ∀ get : String → String,
      (∀ k, k ∈ (extractRange get cfg.entries GoMap.empty).keys ↔ k ∈ cfg.keys) ∧
      (∀ k name, (k, name) ∈ cfg.entries →
        (extractRange get cfg.entries GoMap.empty).get? k = some (get name)) := by
    intro get
    constructor
    · intro k
      simp only [GoMap.mem_keys_iff, extractRange_empty_get?]
      cases cfg.get? k <;> simp
    · intro k name hmem
      rw [extractRange_empty_get?, (cfg.get?_eq_some_iff k name).2 hmem]
      rfl
  refine ⟨⟨(key c.GetHeader).1, (key c.GetHeader).2, ?_⟩, ⟨(key c.Query).1, (key c.Query).2, ?_⟩⟩
  · intro k name v hmem hv
    have := (key c.GetHeader).2 k name hmem
    simp only [HeaderExtractor.Extract, GoMap.index, this, Context.GetHeader, hv, Option.getD_some]
  · intro k name v hmem hv
    have := (key c.Query).2 k name hmem
    simp only [QueryExtractor.Extract, GoMap.index, this, Context.Query, hv, Option.getD_some]

/-- The extraction of `TestHeaderExtractor_Extract`: the signature and the user come back
as the request carries them. -/
theorem Extract_maps_configured_keys_witness :
    ((HeaderExtractor.mk (GoMap.ofList [("signature", "x-signature"),
        ("user_id", "x-user-id")])).Extract headerTestContext).index "signature"
      = "message signature" ∧
    ((QueryExtractor.mk (GoMap.ofList [("user_id", "c"),
        ("signature", "s")])).Extract queryTestContext).index "user_id" = "testUserId" :=
  ⟨(Extract_maps_configured_keys _ headerTestContext).1.2.2 "signature" "x-signature"
      "message signature" (by decide) rfl,
    (Extract_maps_configured_keys _ queryTestContext).2.2.2 "user_id" "c" "testUserId"
      (by decide) rfl⟩

/-- C8: `Validate` of a `HeaderExtractor` or of a `QueryExtractor` returns an error if and
only if some value of the map is the empty string, and the error it returns is
`'<k>' is empty` for a key `k` of the map whose value is the empty string. -/
theorem Validate_error_iff_empty_value (h : HeaderExtractor) (q : QueryExtractor)
    (m : GoMap String) :
    (((∃ err, h.Validate m = some err) ↔ ∃ k, m.get? k = some "") ∧
      ∀ err, h.Validate m = some err →
        ∃ k, m.get? k = some "" ∧ err = fmtErrorf "'%s' is empty" [k]) ∧
    (((∃ err, q.Validate m = some err) ↔ ∃ k, m.get? k = some "") ∧
      ∀ err, q.Validate m = some err →
        ∃ k, m.get? k = some "" ∧ err = fmtErrorf "'%s' is empty" [k]) := by
  have key : ∀ err, validateRange m.entries = some err →
      ∃ k, m.get? k = some "" ∧ err = fmtErrorf "'%s' is empty" [k] := by
    intro err herr
    obtain ⟨k, hmem, he⟩ := validateRange_eq_some _ err herr
    exact ⟨k, (m.get?_eq_some_iff k "").2 hmem, he⟩
  exact ⟨⟨validateRange_isSome_iff m, key⟩, ⟨validateRange_isSome_iff m, key⟩⟩

/-- A map whose user is empty: `Validate` returns `'user_id' is empty`, and a key with an
empty value exists. -/
theorem Validate_error_iff_empty_value_witness :
    HeaderExtractor.Validate ⟨GoMap.empty⟩
        (GoMap.ofList [("signature", "abc"), ("user_id", "")])
      = some (fmtErrorf "'%s' is empty" ["user_id"]) ∧
    ∃ k, (GoMap.ofList [("signature", "abc"), ("user_id", "")]).get? k = some "" :=
  ⟨by decide,
    ((Validate_error_iff_empty_value ⟨GoMap.empty⟩ ⟨GoMap.empty⟩
      (GoMap.ofList [("signature", "abc"), ("user_id", "")])).1.1).1
        ⟨fmtErrorf "'%s' is empty" ["user_id"], by decide⟩⟩

/-- C9: `NewHeaderExtractor` and `NewQueryExtractor` return an error if and only if the
configuration is empty, and for a configuration that is not empty they return the
extractor that holds exactly that configuration. -/
theorem NewExtractor_error_iff_empty (c : GoMap String) :
    (((∃ err, NewHeaderExtractor c = .error err) ↔ c.len = 0) ∧
      (c.len ≠ 0 → NewHeaderExtractor c = .ok { config := c })) ∧
    (((∃ err, NewQueryExtractor c = .error err) ↔ c.len = 0) ∧
      (c.len ≠ 0 → NewQueryExtractor c = .ok { config := c })) := by
  by_cases h : c.len = 0 <;> simp [NewHeaderExtractor, NewQueryExtractor, h]

/-- The configuration of the test of the handler is accepted and kept. -/
theorem NewExtractor_error_iff_empty_witness :
    NewHeaderExtractor (GoMap.ofList [("signature", "x-signature")])
      = .ok { config := GoMap.ofList [("signature", "x-signature")] } :=
  (NewExtractor_error_iff_empty _).1.2 (by decide)

/-- C10: `NewSigner` succeeds if and only if the parameters have the keys `Key`, `Hasher`
and `Encrypter`, with a hasher among sha1 and sha256 and an encrypter among hex,
base64.URL and base64.RawURL; the key is not checked, so the empty key is accepted. -/
theorem NewSigner_ok_iff (params : GoMap String) :
    ((∃ s, NewSigner params = .ok s) ↔
      ∃ key hasherP encrypterP, params.get? "Key" = some key ∧
        params.get? "Hasher" = some hasherP ∧ params.get? "Encrypter" = some encrypterP ∧
        hasherP ∈ ["sha1", "sha256"] ∧ encrypterP ∈ ["hex", "base64.URL", "base64.RawURL"]) ∧
    (params.get? "Key" = some "" →
      ∀ hasherP encrypterP, params.get? "Hasher" = some hasherP →
        params.get? "Encrypter" = some encrypterP → hasherP ∈ ["sha1", "sha256"] →
        encrypterP ∈ ["hex", "base64.URL", "base64.RawURL"] →
        ∃ s, NewSigner params = .ok s ∧ s.key = []) := by
  have build : ∀ key hasherP encrypterP, params.get? "Key" = some key →
      params.get? "Hasher" = some hasherP → params.get? "Encrypter" = some encrypterP →
      hasherP ∈ ["sha1", "sha256"] → encrypterP ∈ ["hex", "base64.URL", "base64.RawURL"] →
      ∃ s, NewSigner params = .ok s ∧ s.key = bytesOf key := by
    intro key hasherP encrypterP hk hh he hhash henc
    obtain ⟨hashF, hhashF⟩ := (hashFuncs_get?_isSome hasherP).2 hhash
    obtain ⟨encryptF, hencF⟩ := (encryptFuncs_get?_isSome encrypterP).2 henc
    exact ⟨_, NewSigner_eq_ok params key hasherP encrypterP hashF encryptF hk hh he hhashF hencF,
      rfl⟩
  refine ⟨⟨?_, ?_⟩, ?_⟩
  · rintro ⟨s, hs⟩
    unfold NewSigner at hs
    cases hk : params.get? "Key" with
    | none => simp [hk] at hs
    | some key =>
      cases hh : params.get? "Hasher" with
      | none => simp [hk, hh] at hs
      | some hasherP =>
        cases he : params.get? "Encrypter" with
        | none => simp [hk, hh, he] at hs
        | some encrypterP =>
          cases hhash : hashFuncs.get? hasherP with
          | none => simp [hk, hh, he, hhash] at hs
          | some hashF =>
            cases henc : encryptFuncs.get? encrypterP with
            | none => simp [hk, hh, he, hhash, henc] at hs
            | some encryptF =>
              exact ⟨key, hasherP, encrypterP, rfl, rfl, rfl,
                (hashFuncs_get?_isSome hasherP).1 ⟨hashF, hhash⟩,
                (encryptFuncs_get?_isSome encrypterP).1 ⟨encryptF, henc⟩⟩
  · rintro ⟨key, hasherP, encrypterP, hk, hh, he, hhash, henc⟩
    obtain ⟨s, hs, _⟩ := build key hasherP encrypterP hk hh he hhash henc
    exact ⟨s, hs⟩
  · intro hk hasherP encrypterP hh he hhash henc
    obtain ⟨s, hs, hkey⟩ := build "" hasherP encrypterP hk hh he hhash henc
    exact ⟨s, hs, by rw [hkey]; rfl⟩

/-- An empty key with sha1 and hex is accepted. -/
theorem NewSigner_ok_iff_witness :
    ∃ s, NewSigner (GoMap.ofList [("Key", ""), ("Hasher", "sha1"), ("Encrypter", "hex")])
      = .ok s ∧ s.key = [] :=
  (NewSigner_ok_iff _).2 (by decide) "sha1" "hex" (by decide) (by decide) (by decide)
    (by decide)

/-- C11: when the parameters lack `Key`, `Hasher` or `Encrypter`, `NewSigner` returns the
error `<p> not received for authenticator.` where `p` is the first of `Key`, `Hasher`,
`Encrypter`, in this order, that the parameters lack. -/
theorem NewSigner_names_first_missing (params : GoMap String) :
    (params.get? "Key" = none →
      NewSigner params = .error (errorsNew "Key not received for authenticator.")) ∧
    ((∃ key, params.get? "Key" = some key) → params.get? "Hasher" = none →
      NewSigner params = .error (errorsNew "Hasher not received for authenticator.")) ∧
    ((∃ key, params.get? "Key" = some key) → (∃ hasherP, params.get? "Hasher" = some hasherP) →
      params.get? "Encrypter" = none →
      NewSigner params = .error (errorsNew "Encrypter not received for authenticator.")) ∧
    ((∃ p ∈ ["Key", "Hasher", "Encrypter"], params.get? p = none) →
      ∃ p ∈ ["Key", "Hasher", "Encrypter"], params.get? p = none ∧
        NewSigner params = .error (errorsNew (p ++ " not received for authenticator."))) := by
  have h1 : params.get? "Key" = none →
      NewSigner params = .error (errorsNew "Key not received for authenticator.") := by
    intro hk
    simp [NewSigner, hk]
  have h2 : (∃ key, params.get? "Key" = some key) → params.get? "Hasher" = none →
      NewSigner params = .error (errorsNew "Hasher not received for authenticator.") := by
    rintro ⟨key, hk⟩ hh
    simp [NewSigner, hk, hh]
  have h3 : (∃ key, params.get? "Key" = some key) →
      (∃ hasherP, params.get? "Hasher" = some hasherP) → params.get? "Encrypter" = none →
      NewSigner params = .error (errorsNew "Encrypter not received for authenticator.") := by
    rintro ⟨key, hk⟩ ⟨hasherP, hh⟩ he
    simp [NewSigner, hk, hh, he]
  refine ⟨h1, h2, h3, ?_⟩
  rintro ⟨p, hp, hnone⟩
  cases hk : params.get? "Key" with
  | none => exact ⟨"Key", by simp, hk, h1 hk⟩
  | some key =>
    cases hh : params.get? "Hasher" with
    | none => exact ⟨"Hasher", by simp, hh, h2 ⟨key, hk⟩ hh⟩
    | some hasherP =>
      cases he : params.get? "Encrypter" with
      | none => exact ⟨"Encrypter", by simp, he, h3 ⟨key, hk⟩ ⟨hasherP, hh⟩ he⟩
      | some encrypterP =>
        simp only [List.mem_cons, List.mem_singleton, List.not_mem_nil, or_false] at hp
        rcases hp with rfl | rfl | rfl
        · rw [hk] at hnone; cases hnone
        · rw [hh] at hnone; cases hnone
        · rw [he] at hnone; cases hnone

/-- The parameters of `TestNewServiceMap` have a key and nothing else: the error names the
hasher. -/
theorem NewSigner_names_first_missing_witness :
    NewSigner (GoMap.ofList [("Key", "magicKey")])
      = .error (errorsNew "Hasher not received for authenticator.") :=
  (NewSigner_names_first_missing (GoMap.ofList [("Key", "magicKey")])).2.1
    ⟨"magicKey", by decide⟩ (by decide)

/-- C12: for a class that is none of the names a factory knows, and any parameters,
`CreateExtractor` returns an `EmptyExtractor`, whose `Extract` gives an empty map and whose
`Validate` always returns nil, `CreateAuthenticator` returns an `EmptyAuthenticator` and
`CreateWriter` returns a new `ConsoleWriter`, each without an error. -/
theorem Create_defaults_for_unknown_class (cls : String) (params : GoMap String)
    (openFile : String → Except GoError File) (heap : Heap) :
    (cls ≠ "HeaderExtractor" → cls ≠ "QueryExtractor" →
      CreateExtractor cls params = .ok (.empty {}) ∧
      (∀ c, (Extractor.empty {}).Extract c = GoMap.empty) ∧
      (∀ m, (Extractor.empty {}).Validate m = none)) ∧
    (cls ≠ "Signer" → CreateAuthenticator cls params = .ok (.empty {})) ∧
    (cls ≠ "MemoryWriter" → cls ≠ "FileWriter" →
      CreateWriter openFile heap cls params = .ok (heap.next, (heap.alloc (.console {})).2) ∧
      (heap.alloc (.console {})).2.obj heap.next = .console {}) := by
  refine ⟨fun h1 h2 => ⟨?_, fun c => rfl, fun m => rfl⟩, fun h => ?_, fun h1 h2 => ⟨?_, ?_⟩⟩
  · simp [CreateExtractor, h1, h2, NewEmptyExtractor, Except.map]
  · simp [CreateAuthenticator, h, NewEmptyAuthenticator, Except.map]
  · simp [CreateWriter, h1, h2, NewConsoleWriter, Except.map, Heap.alloc]
  · simp [Heap.alloc]

/-- The class `Unknown` and the empty class: the defaults. -/
theorem Create_defaults_for_unknown_class_witness :
    CreateExtractor "Unknown" GoMap.empty = .ok (.empty {}) ∧
    CreateAuthenticator "" GoMap.empty = .ok (.empty {}) ∧
    (CreateWriter (fun _ => .ok emptyFile) memoryHeap "Unknown" GoMap.empty).toOption.map
      Prod.fst = some 1 :=
  ⟨((Create_defaults_for_unknown_class "Unknown" GoMap.empty (fun _ => .ok emptyFile)
      memoryHeap).1 (by decide) (by decide)).1,
    (Create_defaults_for_unknown_class "" GoMap.empty (fun _ => .ok emptyFile)
      memoryHeap).2.1 (by decide),
    by
      rw [((Create_defaults_for_unknown_class "Unknown" GoMap.empty (fun _ => .ok emptyFile)
        memoryHeap).2.2 (by decide) (by decide)).1]
      rfl⟩

/-- C13: `EmptyAuthenticator.Authenticate` returns nil for every message and every
signature, a wrong one and the empty one included; so does the interface value that
`NewEmptyAuthenticator` gives. -/
theorem EmptyAuthenticator_accepts_everything (e : EmptyAuthenticator) (message : Bytes)
    (signature : String) :
    e.Authenticate message signature = none ∧
    e.Authenticate message "" = none ∧
    NewEmptyAuthenticator = .ok e ∧
    (Authenticator.empty e).Authenticate message signature = none :=
  ⟨rfl, rfl, rfl, rfl⟩

/-- C14: the contents of a list written in order to a new `MemoryWriter`: every `Write`
returns nil and `GetMessages` then returns the list; a `Write` puts its content at the end
and keeps the messages before it. -/
theorem MemoryWriter_keeps_write_order (L : List String) :
    (∃ w0 w1, NewMemoryWriter = .ok w0 ∧
      (Writer.memory w0).writeAll L = (L.map (fun _ => .returns none), .memory w1) ∧
      w1.GetMessages = L) ∧
    (∀ (w : MemoryWriter) (content : String),
      (w.Write content).1 = none ∧
      (w.Write content).2.GetMessages = w.GetMessages ++ [content]) := by
  refine ⟨⟨⟨[]⟩, ⟨L⟩, rfl, ?_, rfl⟩, fun w content => ⟨rfl, rfl⟩⟩
  rw [Writer.writeAll_memory]
  simp

/-- C15: after `Close`, `GetMessages` of a `MemoryWriter` returns the empty sequence,
whatever the writer held, and in particular after any sequence of writes to a new
writer. -/
theorem MemoryWriter_Close_clears (w : MemoryWriter) (L : List String) :
    w.Close.GetMessages = [] ∧
    (Writer.Close (.memory w)) = (.returns (), .memory { Messages := [] }) ∧
    (∃ w1, ((Writer.memory { Messages := [] }).writeAll L).2 = .memory w1 ∧
      w1.GetMessages = L ∧ w1.Close.GetMessages = []) := by
  refine ⟨rfl, rfl, ⟨L⟩, ?_, rfl, rfl⟩
  rw [Writer.writeAll_memory]
  simp

/-- C16, as the claim has it, fails for a `FileWriter`: the first `Close` of a new
`FileWriter` returns, and the second one does not return but ends in a run-time error. -/
theorem Close_twice_FileWriter_fails :
    (Writer.Close (.file newFileWriter)).1 = .returns () ∧
    (Writer.Close (Writer.Close (.file newFileWriter)).2).1
      = .panics "close of closed channel" ∧
    (Writer.Close (Writer.Close (.file newFileWriter)).2).1 ≠ .returns () := by
  decide

/-- C16, as the code has it: a second `Close` of a `MemoryWriter` or of a `ConsoleWriter`
returns and leaves the writer as the first `Close` left it; a second `Close` of a
`FileWriter` whose first `Close` returned ends in the run-time error of closing a closed
channel, the writer staying as the first `Close` left it. -/
theorem Close_twice (mw : MemoryWriter) (cw : ConsoleWriter) (fw : FileWriter) :
    (Writer.Close (Writer.Close (.memory mw)).2
      = (.returns (), (Writer.Close (.memory mw)).2)) ∧
    (Writer.Close (Writer.Close (.console cw)).2
      = (.returns (), (Writer.Close (.console cw)).2)) ∧
    ((Writer.Close (.file fw)).1 = .returns () →
      Writer.Close (Writer.Close (.file fw)).2
        = (.panics "close of closed channel", (Writer.Close (.file fw)).2)) := by
  refine ⟨rfl, rfl, fun h => ?_⟩
  cases hchan : fw.mchan <;> cases htask : fw.task <;>
    simp [Writer.Close, FileWriter.Close, hchan, htask] at h ⊢

/-- The second `Close` of a new `FileWriter`. -/
theorem Close_twice_witness :
    Writer.Close (Writer.Close (.file newFileWriter)).2
      = (.panics "close of closed channel", (Writer.Close (.file newFileWriter)).2) :=
  (Close_twice ⟨[]⟩ {} newFileWriter).2.2 (by decide)

/-- C17: the messages of a list written one after the other to a `FileWriter` that is open,
on a file that takes every write, and then `Close`.  Every `Write` returns nil, `Close`
returns, and the file then holds what it held followed by the lines of the messages in
write order, each message followed by a newline when it does not end with one; the size
counter has grown by the number of bytes appended.  The counter is an `int64`: the sizes
are taken within its range, as the size of a file is. -/
theorem FileWriter_appends_framed_lines (w : FileWriter) (L : List String)
    (hchan : w.mchan = .opened) (htask : w.task = .receiving)
    (hclosed : w.file.closed = false) (hfault : w.file.fault = none)
    (hlo : -9223372036854775808 ≤ w.size)
    (hhi : w.size + (framedText L).length < 9223372036854775808) :
    ∃ w1 w2, (Writer.file w).writeAll L = (L.map (fun _ => .returns none), .file w1) ∧
      Writer.Close (.file w1) = (.returns (), .file w2) ∧
      w2.file.data = w.file.data ++ framedText L ∧
      w2.file.closed = true ∧
      w2.size = w.size + (framedText L).length := by
  refine ⟨{ w with
      file := { w.file with data := w.file.data ++ framedText L },
      size := w.size + (framedText L).length },
    { w with
      file := { w.file with data := w.file.data ++ framedText L, closed := true },
      size := w.size + (framedText L).length, mchan := .closed, task := .finished },
    Writer.writeAll_file L w hchan htask hclosed hfault hlo hhi, ?_, rfl, rfl, rfl⟩
  simp [Writer.Close, FileWriter.Close, hchan, htask, File.Close, hclosed]

/-- The messages a, b, c written to a new `FileWriter` leave the three lines in the file
and 6 in the counter; an empty message leaves a lone newline. -/
theorem FileWriter_appends_framed_lines_witness :
    (∃ w1 w2, (Writer.file newFileWriter).writeAll ["a", "b", "c"]
        = ([.returns none, .returns none, .returns none], .file w1) ∧
      Writer.Close (.file w1) = (.returns (), .file w2) ∧
      w2.file.data = "a\nb\nc\n" ∧ w2.file.closed = true ∧ w2.size = 6) ∧
    (∃ w1 w2, (Writer.file newFileWriter).writeAll [""] = ([.returns none], .file w1) ∧
      Writer.Close (.file w1) = (.returns (), .file w2) ∧
      w2.file.data = "\n" ∧ w2.file.closed = true ∧ w2.size = 1) :=
  ⟨FileWriter_appends_framed_lines newFileWriter ["a", "b", "c"] rfl rfl rfl rfl (by decide)
      (by decide),
    FileWriter_appends_framed_lines newFileWriter [""] rfl rfl rfl rfl (by decide) (by decide)⟩

/-- C18, on the code: a message is handed to a `FileWriter` whose file the system refuses
to extend.  `Write` returns nil, the goroutine returns on the error without a message on
`done`, and `Close` then waits forever. -/
theorem FileWriter_Close_blocks_after_failed_append :
    (faultyFileWriter.Write "a").1 = .returns none ∧
    (faultyFileWriter.Write "a").2.task = .failed ∧
    (faultyFileWriter.Write "a").2.Close.1 = .blocks ∧
    (Writer.Close (Writer.Write (.file faultyFileWriter) "a").2).1 = .blocks := by
  decide

/-- C19: after `SetService(n, e, a, w)` the lookup of `n` gives the binding `(e, a, w)`,
whatever the registry held under `n` before, and the lookup of every other name gives what
it gave before. -/
theorem SetService_lookup (services : GoMap service) (n : String) (e : Option Extractor)
    (a : Option Authenticator) (w : Option Nat) :
    (SetService services n e a w).get? n = some { ext := e, auth := a, w := w } ∧
    ∀ n1, n1 ≠ n → (SetService services n e a w).get? n1 = services.get? n1 := by
  refine ⟨by simp [SetService, GoMap.get?_set], fun n1 h => ?_⟩
  simp [SetService, GoMap.get?_set, h]

/-- The registry of `TestDataHandler` after the service `test` is set again, to nothing: the
lookup of `test` gives the new binding and the lookup of `other` still finds nothing. -/
theorem SetService_lookup_witness :
    (SetService handlerTestServices "test" none none none).get? "test"
      = some { ext := none, auth := none, w := none } ∧
    (SetService handlerTestServices "test" none none none).get? "other"
      = handlerTestServices.get? "other" :=
  ⟨(SetService_lookup handlerTestServices "test" none none none).1,
    (SetService_lookup handlerTestServices "test" none none none).2 "other" (by decide)⟩

/-- C20: for a `ServiceMap` whose map has been made.  `Add(name, conf)` returns an error if
and only if the name is stored already, and then the map stays as it was; otherwise it
returns nil and `Get(name)` then returns `conf` without an error.  `Get(name)` returns an
error if and only if the name is not stored.  `List()` holds every stored name once, so its
length is the number of services. -/
theorem ServiceMap_contract (m : GoMap (Option ServiceConfig)) (name : String)
    (conf : Option ServiceConfig) :
    (((∃ err, ((ServiceMap.mk (some m)).Add name conf).1 = .returns (some err)) ↔
        name ∈ (ServiceMap.mk (some m)).List) ∧
      (name ∈ (ServiceMap.mk (some m)).List →
        ((ServiceMap.mk (some m)).Add name conf).2 = ServiceMap.mk (some m)) ∧
      (name ∉ (ServiceMap.mk (some m)).List →
        ((ServiceMap.mk (some m)).Add name conf).1 = .returns none ∧
        ((ServiceMap.mk (some m)).Add name conf).2.Get name = .ok conf)) ∧
    ((∃ err, (ServiceMap.mk (some m)).Get name = .error err) ↔
      name ∉ (ServiceMap.mk (some m)).List) ∧
    ((ServiceMap.mk (some m)).List.Nodup ∧
      (ServiceMap.mk (some m)).List.length = m.len ∧
      ∀ n, n ∈ (ServiceMap.mk (some m)).List ↔ ∃ s, m.get? n = some s) := by
  rw [ServiceMap.List_eq_keys]
  refine ⟨⟨?_, ?_, ?_⟩, ?_, m.nodup, by simp [GoMap.keys, GoMap.len], fun n => m.mem_keys_iff n⟩
  · rw [GoMap.mem_keys_iff]
    cases h : m.get? name <;> simp [ServiceMap.Add, h]
  · intro hmem
    obtain ⟨s, hs⟩ := (m.mem_keys_iff name).1 hmem
    simp [ServiceMap.Add, hs]
  · intro hmem
    have hnone := (m.get?_eq_none_iff name).2 hmem
    simp [ServiceMap.Add, hnone, ServiceMap.Get, GoMap.get?_set]
  · rw [← GoMap.get?_eq_none_iff]
    cases h : m.get? name <;> simp [ServiceMap.Get, h]

/-- The calls of `TestNewServiceMap`: `Add` on a new map returns nil, `List` has one name,
and `Get` returns the configuration added. -/
theorem ServiceMap_contract_witness :
    (NewServiceMap.Add "test_service" (some testServiceConfig)).1 = .returns none ∧
    (NewServiceMap.Add "test_service" (some testServiceConfig)).2.Get "test_service"
      = .ok (some testServiceConfig) :=
  ((ServiceMap_contract GoMap.empty "test_service" (some testServiceConfig)).1.2.2
    (by decide))

/-- C21, on the code: a configuration that parses, with a complete service `a` and a
service `b` that has no descriptor for its extractor.  `Initialize` registers `a`, then
ends in the run-time error of a nil pointer dereference at `b`: it returns neither nil nor
an error. -/
theorem Initialize_crashes_on_missing_descriptor :
    (Initialize
      (hostDecoding ⟨some (GoMap.ofList [("a", some completeServiceConfig),
        ("b", some noExtractorServiceConfig)])⟩)
      GoMap.empty memoryHeap "" "record").result = .panics nilDereference ∧
    (Initialize
      (hostDecoding ⟨some (GoMap.ofList [("a", some completeServiceConfig),
        ("b", some noExtractorServiceConfig)])⟩)
      GoMap.empty memoryHeap "" "record").services.keys = ["a"] ∧
    (Initialize
      (hostDecoding ⟨some (GoMap.ofList [("b", some noExtractorServiceConfig),
        ("a", some completeServiceConfig)])⟩)
      GoMap.empty memoryHeap "" "record").services.keys = [] := by
  decide

/-- C22, as the claim has it, fails: `SetService` with three nil plugins is not rejected, it
creates a binding without plugins, and the registry no longer has the invariant. -/
theorem SetService_accepts_nil_plugins :
    allBound (GoMap.empty : GoMap service) = true ∧
    (SetService GoMap.empty "partial" none none none).get? "partial"
      = some { ext := none, auth := none, w := none } ∧
    allBound (SetService GoMap.empty "partial" none none none) = false := by
  refine ⟨rfl, rfl, rfl⟩

/-- C22, as the code has it: the bindings that `Initialize` registers have an extractor, an
authenticator and a writer, so `Initialize` keeps the invariant of a registry that has it,
however it ends; `SetService` with three plugins keeps it as well; and `SetService` makes
no check: it stores the binding it is given, nil plugins included. -/
theorem registry_invariant (host : Host) (services : GoMap service) (heap : Heap) :
    (∀ filepath cfgInline, allBound services = true →
      allBound (Initialize host services heap filepath cfgInline).services = true) ∧
    (∀ key (ext : Extractor) (auth : Authenticator) (w : Nat), allBound services = true →
      allBound (SetService services key (some ext) (some auth) (some w)) = true) ∧
    (∀ key ext auth w, (SetService services key ext auth w).get? key
      = some { ext := ext, auth := auth, w := w }) :=
  ⟨fun filepath cfgInline h => allBound_Initialize host services heap filepath cfgInline h,
    fun key ext auth w h => allBound_SetService services key ext auth w h,
    fun key ext auth w => by simp [SetService, GoMap.get?_set]⟩

/-- The registry that `Initialize` builds from a configuration with one complete service
and one whose extractor has no parameters has the invariant. -/
theorem registry_invariant_witness :
    allBound (Initialize
      (hostDecoding ⟨some (GoMap.ofList [("a", some completeServiceConfig),
        ("b", some testServiceConfig)])⟩)
      GoMap.empty memoryHeap "" "record").services = true :=
  (registry_invariant _ GoMap.empty memoryHeap).1 "" "record" rfl

set_option maxRecDepth 100000 in
/-- C23, as the claim has it, fails: the registry of `TestDataHandler` and the same registry
with the key `magickey` instead of `magicKey` both reject the request with the signature
`Wrong signature`, and the two responses have different bodies: each carries the signature
generated under its key. -/
theorem rejection_body_depends_on_key :
    (DataHandler handlerTestServices memoryHeap forgedTestContext).response
      = .returns ⟨401, some (fmtErrorf "Signatures don't match. Received %q - Generated %q"
          ["Wrong signature", "GXjQXzGexUuSH444qEyMI-b9Lif_Uq39gElhs_7PMVY="])⟩ ∧
    (DataHandler otherKeyServices memoryHeap forgedTestContext).response
      = .returns ⟨401, some (fmtErrorf "Signatures don't match. Received %q - Generated %q"
          ["Wrong signature", "DmbZpSMTkkBflT8fdkLmoRxM17XjlRDzpHI8a39PvNA="])⟩ ∧
    (DataHandler handlerTestServices memoryHeap forgedTestContext).response
      ≠ (DataHandler otherKeyServices memoryHeap forgedTestContext).response := by
  decide

/-- C23, as the code has it: two bindings with the same extractor and writer and signers
that differ in the key only, and a request that passes validation and that both signers
reject.  Both responses have status 401, and the body of each is the error of
`Authenticate` with the received signature and the signature generated under the key of
the binding: the responses are the same if and only if the two generated signatures are
the same. -/
theorem rejection_echoes_generated_signature (services1 services2 : GoMap service)
    (heap : Heap) (c : Context) (ext : Extractor) (hashF : HashFunc)
    (encryptF : Bytes → String) (key1 key2 : Bytes) (w : Option Nat) (B : Bytes)
    (hs1 : services1.get? (c.Param "service")
      = some { ext := some ext, auth := some (.signer ⟨key1, hashF, encryptF⟩), w := w })
    (hs2 : services2.get? (c.Param "service")
      = some { ext := some ext, auth := some (.signer ⟨key2, hashF, encryptF⟩), w := w })
    (hvalid : ext.Validate (ext.Extract c) = none) (hbody : c.GetRawData = .ok B)
    (hne1 : (ext.Extract c).index "signature" ≠ encryptF (hmacRFC2104 hashF key1 B))
    (hne2 : (ext.Extract c).index "signature" ≠ encryptF (hmacRFC2104 hashF key2 B)) :
    (DataHandler services1 heap c).response
      = .returns ⟨http.StatusUnauthorized,
          some (fmtErrorf "Signatures don't match. Received %q - Generated %q"
            [(ext.Extract c).index "signature", encryptF (hmacRFC2104 hashF key1 B)])⟩ ∧
    (DataHandler services2 heap c).response
      = .returns ⟨http.StatusUnauthorized,
          some (fmtErrorf "Signatures don't match. Received %q - Generated %q"
            [(ext.Extract c).index "signature", encryptF (hmacRFC2104 hashF key2 B)])⟩ ∧
    ((DataHandler services1 heap c).response = (DataHandler services2 heap c).response ↔
      encryptF (hmacRFC2104 hashF key1 B) = encryptF (hmacRFC2104 hashF key2 B)) := by
  have h1 := DataHandler_rejected_by_signer services1 heap c _ ext ⟨key1, hashF, encryptF⟩ B
    hs1 rfl rfl hvalid hbody hne1
  have h2 := DataHandler_rejected_by_signer services2 heap c _ ext ⟨key2, hashF, encryptF⟩ B
    hs2 rfl rfl hvalid hbody hne2
  refine ⟨by rw [h1], by rw [h2], ?_⟩
  rw [h1, h2]
  simp [fmtErrorf]

set_option maxRecDepth 100000 in
/-- The two registries of the counterexample, on the request with the signature
`Wrong signature`: both answer 401 with the signature they generated. -/
theorem rejection_echoes_generated_signature_witness :
    (DataHandler handlerTestServices memoryHeap forgedTestContext).response
      = .returns ⟨401, some (fmtErrorf "Signatures don't match. Received %q - Generated %q"
          [((Extractor.header ⟨GoMap.ofList [("signature", "x-signature")]⟩).Extract
              forgedTestContext).index "signature",
            base64.URLEncoding.EncodeToString
              (hmacRFC2104 sha256.New (bytesOf "magicKey") (bytesOf "test message"))])⟩ :=
  (rejection_echoes_generated_signature handlerTestServices otherKeyServices memoryHeap
    forgedTestContext (.header ⟨GoMap.ofList [("signature", "x-signature")]⟩) sha256.New
    base64.URLEncoding.EncodeToString (bytesOf "magicKey") (bytesOf "magickey") (some 0)
    (bytesOf "test message") rfl rfl (by decide) rfl (by decide) (by decide)).1

set_option maxRecDepth 100000 in
/-- C24, as the claim has it, fails: for the service of `TestDataHandler` the request
without a signature is answered 400 and the request with a wrong signature 401. -/
theorem missing_signature_is_400_not_401 :
    (DataHandler handlerTestServices memoryHeap unsignedTestContext).response
      = .returns ⟨400, some (fmtErrorf "'%s' is empty" ["signature"])⟩ ∧
    (DataHandler handlerTestServices memoryHeap forgedTestContext).response
      = .returns ⟨401, some (fmtErrorf "Signatures don't match. Received %q - Generated %q"
          ["Wrong signature", "GXjQXzGexUuSH444qEyMI-b9Lif_Uq39gElhs_7PMVY="])⟩ := by
  decide

/-- C24, as the code has it: for a service authenticated by a `Signer`, a request that
passes validation and carries a wrong signature is answered 401, and a request without
the header (query parameter) from which the extractor of the service reads the signature
is answered 400: validation comes first. -/
theorem missing_and_wrong_signature_statuses (services : GoMap service) (heap : Heap)
    (c : Context) (svc : service) (ext : Extractor) (s : Signer)
    (hs : services.get? (c.Param "service") = some svc) (hext : svc.ext = some ext)
    (hauth : svc.auth = some (.signer s)) :
    (∀ B, ext.Validate (ext.Extract c) = none → c.GetRawData = .ok B →
      (ext.Extract c).index "signature" ≠ s.encrypter (hmacRFC2104 s.hasher s.key B) →
      ∃ err, (DataHandler services heap c).response
        = .returns ⟨http.StatusUnauthorized, some err⟩) ∧
    (∀ cfg name, ("signature", name) ∈ cfg.entries →
      (ext = .header ⟨cfg⟩ ∧ c.headers name = none) ∨
        (ext = .query ⟨cfg⟩ ∧ c.query name = none) →
      ∃ err, (DataHandler services heap c).response
        = .returns ⟨http.StatusBadRequest, some err⟩) := by
  constructor
  · intro B hvalid hbody hne
    rw [DataHandler_rejected_by_signer services heap c svc ext s B hs hext hauth hvalid hbody
      hne]
    exact ⟨_, rfl⟩
  · intro cfg name hcfg habs
    have hverr : ∃ err, ext.Validate (ext.Extract c) = some err := by
      rcases habs with ⟨he, hnone⟩ | ⟨he, hnone⟩ <;> subst he
      · exact validate_extract_missing c.GetHeader cfg "signature" name hcfg
          (by simp [Context.GetHeader, hnone])
      · exact validate_extract_missing c.Query cfg "signature" name hcfg
          (by simp [Context.Query, hnone])
    obtain ⟨err, herr⟩ := hverr
    exact ⟨err, by simp [DataHandler, hs, hext, herr]⟩

set_option maxRecDepth 100000 in
/-- The request of `TestDataHandler` with the signature `Wrong signature` is answered 401,
and without its signature header it is answered 400. -/
theorem missing_and_wrong_signature_statuses_witness :
    (∃ err, (DataHandler handlerTestServices memoryHeap forgedTestContext).response
      = .returns ⟨401, some err⟩) ∧
    (∃ err, (DataHandler handlerTestServices memoryHeap unsignedTestContext).response
      = .returns ⟨400, some err⟩) :=
  ⟨(missing_and_wrong_signature_statuses handlerTestServices memoryHeap forgedTestContext
      (handlerTestService 0) (.header ⟨GoMap.ofList [("signature", "x-signature")]⟩)
      ⟨bytesOf "magicKey", sha256.New, base64.URLEncoding.EncodeToString⟩ rfl rfl rfl).1
      (bytesOf "test message") (by decide) rfl (by decide),
    (missing_and_wrong_signature_statuses handlerTestServices memoryHeap unsignedTestContext
      (handlerTestService 0) _ _ rfl rfl rfl).2
      (GoMap.ofList [("signature", "x-signature")]) "x-signature" (by decide)
      (Or.inl ⟨rfl, rfl⟩)⟩

/-- The shutdown when every `Close` returns: `CloseWriters` leaves the registry as it is.
When every registered service has a
writer whose `Close` returns, and no writer is registered twice, `CloseWriters` returns,
the writer of every registered service is then what its `Close` makes of it, and every
other object of the heap is as before.  Whenever `CloseWriters` returns, every registered
`MemoryWriter` has the empty sequence of messages afterwards. -/
theorem CloseWriters_closes_every_writer (services : GoMap service) (heap : Heap) :
    (CloseWriters services heap).services = services ∧
    ((∀ n svc, services.get? n = some svc →
        ∃ r, svc.w = some r ∧ ((heap.obj r).Close).1 = .returns ()) →
      (services.entries.map (fun e => e.2.w)).Nodup →
      (CloseWriters services heap).result = .returns () ∧
      (∀ n svc r, services.get? n = some svc → svc.w = some r →
        (CloseWriters services heap).heap.obj r = ((heap.obj r).Close).2) ∧
      (∀ r, (∀ n svc, services.get? n = some svc → svc.w ≠ some r) →
        (CloseWriters services heap).heap.obj r = heap.obj r)) ∧
    ((CloseWriters services heap).result = .returns () →
      ∀ n svc r mw, services.get? n = some svc → svc.w = some r → heap.obj r = .memory mw →
        (CloseWriters services heap).heap.obj r = .memory { Messages := [] }) := by
  refine ⟨rfl, fun hall hnd => ?_, fun hret n svc r mw hget hr hmem => ?_⟩
  · have h := closeRange_returns services.entries heap
      (fun e he => hall e.1 e.2 ((services.get?_eq_some_iff e.1 e.2).2 he)) hnd
    refine ⟨h.1, fun n svc r hget hr => ?_, fun r hr => ?_⟩
    · exact h.2 (n, svc) ((services.get?_eq_some_iff n svc).1 hget) r hr
    · exact closeRange_frame services.entries heap r
        (fun e he => hr e.1 e.2 ((services.get?_eq_some_iff e.1 e.2).2 he))
  · exact closeRange_clears_memory services.entries heap hret (n, svc)
      ((services.get?_eq_some_iff n svc).1 hget) r mw hr hmem

/-- The shutdown of `TestDataHandler`: the writer of the service holds `test message`;
`CloseWriters` returns, and after it the writer holds nothing. -/
theorem CloseWriters_closes_every_writer_witness :
    (CloseWriters handlerTestServices
      (memoryHeap.set 0 (.memory { Messages := ["test message"] }))).result = .returns () ∧
    (CloseWriters handlerTestServices
      (memoryHeap.set 0 (.memory { Messages := ["test message"] }))).heap.obj 0
      = .memory { Messages := [] } :=
  ⟨((CloseWriters_closes_every_writer handlerTestServices
      (memoryHeap.set 0 (.memory { Messages := ["test message"] }))).2.1
      (fun n svc hget => by
        have hmem := (handlerTestServices.get?_eq_some_iff n svc).1 hget
        simp only [handlerTestServices, SetService, GoMap.set, GoMap.empty, List.filter_nil,
          List.mem_singleton, Prod.mk.injEq] at hmem
        obtain ⟨_, rfl⟩ := hmem
        exact ⟨0, rfl, rfl⟩)
      (by simp [handlerTestServices, SetService, GoMap.set, GoMap.empty])).1,
    (CloseWriters_closes_every_writer handlerTestServices
      (memoryHeap.set 0 (.memory { Messages := ["test message"] }))).2.2 rfl
      "test" (handlerTestService 0) 0 { Messages := ["test message"] } rfl rfl rfl⟩

/-- C25, on the code: a registry with the services `file` and `mem` at shutdown, the
writer of `file` a `FileWriter` after a `Write` whose append failed, the writer of `mem` a
`MemoryWriter` that holds `kept`.  `CloseWriters` never returns: the `Close` of the
`FileWriter` waits forever.  When the range visits `file` first, `Close` is not called on
the writer of `mem`, which still holds `kept`; when it visits `mem` first, the file of the
`FileWriter` is not closed.  The registry is as before. -/
theorem CloseWriters_stops_at_blocked_Close :
    shutdownServices.keys = ["file", "mem"] ∧
    (CloseWriters shutdownServices shutdownHeap).result = .blocks ∧
    (CloseWriters shutdownServices shutdownHeap).heap.obj 1
      = .memory { Messages := ["kept"] } ∧
    (CloseWriters shutdownServices shutdownHeap).services.keys = ["file", "mem"] ∧
    shutdownServicesMemFirst.keys = ["mem", "file"] ∧
    (CloseWriters shutdownServicesMemFirst shutdownHeap).result = .blocks ∧
    (CloseWriters shutdownServicesMemFirst shutdownHeap).heap.obj 1
      = .memory { Messages := [] } ∧
    (CloseWriters shutdownServicesMemFirst shutdownHeap).heap.obj 0
      = .file ⟨⟨"", false, some 0⟩, 0, .closed, .failed⟩ :=
  ⟨by decide, by decide, rfl, by decide, by decide, by decide, rfl, rfl⟩

/-- C26: when the signature does not match, the error that `Signer.Authenticate` returns
is built from the received signature and from the generated signature, the encoded HMAC
of the message: both are arguments of its message. -/
theorem Signer_error_carries_both_signatures (s : Signer) (M : Bytes) (signature : String)
    (hne : signature ≠ s.encrypter (hmacRFC2104 s.hasher s.key M)) :
    ∃ err, s.Authenticate M signature = some err ∧
      err = fmtErrorf "Signatures don't match. Received %q - Generated %q"
        [signature, s.encrypter (hmacRFC2104 s.hasher s.key M)] ∧
      signature ∈ err.args ∧ s.encrypter (hmacRFC2104 s.hasher s.key M) ∈ err.args :=
  ⟨_, Signer.Authenticate_of_ne s M signature hne, rfl, by simp [fmtErrorf],
    by simp [fmtErrorf]⟩

/-- The error of `TestSigner_Invalid`: it carries `Wrong signature` and the signature of
the message under the key. -/
theorem Signer_error_carries_both_signatures_witness :
    (Signer.mk (bytesOf "magickey") sha256.New
      base64.URLEncoding.EncodeToString).Authenticate (bytesOf "Example message")
        "Wrong signature"
      = some (fmtErrorf "Signatures don't match. Received %q - Generated %q"
          ["Wrong signature", "T74tLOfKmtWHV660tkaAzoNPCWXeAWYy8lD5PUiEdqg="]) := by
  obtain ⟨err, herr, hval, _⟩ := Signer_error_carries_both_signatures
    (Signer.mk (bytesOf "magickey") sha256.New base64.URLEncoding.EncodeToString)
    (bytesOf "Example message") "Wrong signature"
    (by dsimp only; rw [signature_sha256_url]; decide)
  rw [herr, hval]
  dsimp only
  rw [signature_sha256_url]

/-- C27: a service whose extractor has no output key `signature` (an `EmptyExtractor`, or a
`HeaderExtractor` or `QueryExtractor` configured without it) and whose authenticator is a
`Signer` with any key, a supported hash and a supported encoder.  Every request that
passes validation is answered 401, the heap is unchanged and no `Write` is called: the
signature that the pipeline passes is the empty string, and the encoded HMAC never is. -/
theorem DataHandler_without_signature_field (services : GoMap service) (heap : Heap)
    (c : Context) (svc : service) (ext : Extractor) (key : Bytes) (hashF : HashFunc)
    (encryptF : Bytes → String)
    (hs : services.get? (c.Param "service") = some svc) (hext : svc.ext = some ext)
    (hauth : svc.auth = some (.signer ⟨key, hashF, encryptF⟩))
    (hhash : hashF = sha1.New ∨ hashF = sha256.New)
    (henc : encryptF = hex.EncodeToString ∨ encryptF = base64.URLEncoding.EncodeToString ∨
      encryptF = base64.RawURLEncoding.EncodeToString)
    (hnosig : (∃ e, ext = .empty e) ∨
      ∃ cfg, (ext = .header ⟨cfg⟩ ∨ ext = .query ⟨cfg⟩) ∧ cfg.get? "signature" = none)
    (hvalid : ext.Validate (ext.Extract c) = none) :
    (∃ err, (DataHandler services heap c).response
      = .returns ⟨http.StatusUnauthorized, some err⟩) ∧
    (DataHandler services heap c).heap = heap ∧
    (∀ content, Call.Write content ∉ (DataHandler services heap c).calls) ∧
    (∀ B, encryptF (hmacRFC2104 hashF key B) ≠ "") := by
  have hempty := Extractor.index_signature_of_not_configured ext c hnosig
  have hnever : ∀ B, encryptF (hmacRFC2104 hashF key B) ≠ "" :=
    fun B => encoded_hmac_ne_empty hashF encryptF key B hhash henc
  cases hb : c.GetRawData with
  | error err => simp [DataHandler, hs, hext, hvalid, hb, hnever]
  | ok B =>
    have hne : (ext.Extract c).index "signature"
        ≠ (Signer.mk key hashF encryptF).encrypter
          (hmacRFC2104 (Signer.mk key hashF encryptF).hasher (Signer.mk key hashF encryptF).key
            B) := by
      rw [hempty]
      exact (hnever B).symm
    rw [DataHandler_rejected_by_signer services heap c svc ext _ B hs hext hauth hvalid hb hne]
    simp [hnever]

/-- The request of `TestDataHandler`, with its valid signature, to a service with an
`EmptyExtractor` and the signer of the test: 401, and the writer keeps its empty
sequence. -/
theorem DataHandler_without_signature_field_witness :
    (∃ err, (DataHandler
      (SetService GoMap.empty "test" (some (.empty {})) (handlerTestService 0).auth (some 0))
      memoryHeap handlerTestContext).response = .returns ⟨401, some err⟩) ∧
    (DataHandler
      (SetService GoMap.empty "test" (some (.empty {})) (handlerTestService 0).auth (some 0))
      memoryHeap handlerTestContext).heap = memoryHeap :=
  have h := DataHandler_without_signature_field
    (SetService GoMap.empty "test" (some (.empty {})) (handlerTestService 0).auth (some 0))
    memoryHeap handlerTestContext _ (.empty {}) (bytesOf "magicKey") sha256.New
    base64.URLEncoding.EncodeToString rfl rfl rfl (Or.inr rfl) (Or.inr (Or.inl rfl))
    (Or.inl ⟨{}, rfl⟩) rfl
  ⟨h.1, h.2.1⟩

/-- C28: a service whose extractor is one of the package, and two requests for it with the
same body and the same extracted signature, whose other extracted values are not empty.
`DataHandler` gives the same response to both, leaves the same heap, so has written the
same content, and has made the same calls. -/
theorem DataHandler_depends_on_signature_only (services : GoMap service) (heap : Heap)
    (c1 c2 : Context) (svc : service) (ext : Extractor)
    (hname : c2.Param "service" = c1.Param "service")
    (hs : services.get? (c1.Param "service") = some svc) (hext : svc.ext = some ext)
    (hkind : (∃ e, ext = .empty e) ∨ (∃ h, ext = .header h) ∨ (∃ q, ext = .query q))
    (hbody : c2.GetRawData = c1.GetRawData)
    (hsig : (ext.Extract c2).get? "signature" = (ext.Extract c1).get? "signature")
    (h1 : ∀ k v, k ≠ "signature" → (ext.Extract c1).get? k = some v → v ≠ "")
    (h2 : ∀ k v, k ≠ "signature" → (ext.Extract c2).get? k = some v → v ≠ "") :
    (DataHandler services heap c2).response = (DataHandler services heap c1).response ∧
    (DataHandler services heap c2).heap = (DataHandler services heap c1).heap ∧
    (DataHandler services heap c2).calls = (DataHandler services heap c1).calls := by
  have hV : ext.Validate (ext.Extract c2) = ext.Validate (ext.Extract c1) :=
    Extractor.Validate_of_signature ext _ _ hkind hsig h2 h1
  have hI : (ext.Extract c2).index "signature" = (ext.Extract c1).index "signature" := by
    simp only [GoMap.index, hsig]
  have key : DataHandler services heap c2 = DataHandler services heap c1 := by
    simp only [DataHandler, hname, hs, hext, hV, hI, hbody]
  rw [key]
  exact ⟨rfl, rfl, rfl⟩

/-- The request of `TestDataHandler` and the same request from another user, to a service
that extracts the signature and the user: the same response and the same heap. -/
theorem DataHandler_depends_on_signature_only_witness :
    (DataHandler twoFieldServices memoryHeap otherUserTestContext).response
      = (DataHandler twoFieldServices memoryHeap handlerTestContext).response ∧
    (DataHandler twoFieldServices memoryHeap otherUserTestContext).heap
      = (DataHandler twoFieldServices memoryHeap handlerTestContext).heap := by
  have hget : ∀ (c : Context) (k : String),
      ((Extractor.header ⟨GoMap.ofList [("signature", "x-signature"),
        ("user_id", "x-user-id")]⟩).Extract c).get? k
        = if k = "signature" then some (c.GetHeader "x-signature")
          else if k = "user_id" then some (c.GetHeader "x-user-id") else none := by
    intro c k
    simp only [Extractor.Extract, HeaderExtractor.Extract, extractRange_empty_get?,
      GoMap.ofList, GoMap.get?_set, GoMap.get?_empty]
    by_cases h1 : k = "signature"
    · simp [h1]
    · by_cases h2 : k = "user_id" <;> simp [h1, h2]
  have h := DataHandler_depends_on_signature_only twoFieldServices memoryHeap
    handlerTestContext otherUserTestContext _
    (.header ⟨GoMap.ofList [("signature", "x-signature"), ("user_id", "x-user-id")]⟩)
    rfl rfl rfl (Or.inr (Or.inl ⟨_, rfl⟩)) rfl (by rw [hget, hget]; rfl)
    (by
      intro k v hk hv
      rw [hget, if_neg hk] at hv
      by_cases h2 : k = "user_id"
      · rw [if_pos h2] at hv
        cases hv
        decide
      · rw [if_neg h2] at hv
        cases hv)
    (by
      intro k v hk hv
      rw [hget, if_neg hk] at hv
      by_cases h2 : k = "user_id"
      · rw [if_pos h2] at hv
        cases hv
        decide
      · rw [if_neg h2] at hv
        cases hv)
  exact ⟨h.1, h.2.1⟩

/-- C29: `CreateParser(f, record)` gives a `JsonFileParser` for `f` when `f` ends in
`.json` and a `YamlFileParser` for `f` when `f` ends in `.yaml`, whatever the record;
otherwise a `JsonRecordParser` for the record when the record is not empty, and nil when
it is empty.  In this last case `Initialize` parses nothing: the call of `Parse` on the nil
parser ends it in a run-time error, with the registry and the heap as they were. -/
theorem CreateParser_selects_by_extension (f record : String) :
    (strings.HasSuffix f ".json" = true →
      CreateParser f record = some (.jsonFile { filepath := f })) ∧
    (strings.HasSuffix f ".yaml" = true →
      CreateParser f record = some (.yamlFile { filepath := f })) ∧
    (strings.HasSuffix f ".json" = false → strings.HasSuffix f ".yaml" = false →
      (record ≠ "" → CreateParser f record = some (.jsonRecord { content := record })) ∧
      (record = "" → CreateParser f record = none ∧
        ∀ host services heap, Initialize host services heap f record
          = { result := .panics nilDereference, services := services, heap := heap })) := by
  refine ⟨fun hj => ?_, fun hy => ?_, fun hj hy => ?_⟩
  · simp [CreateParser, (filepath.Ext_json f).2 hj, NewJsonFileParser]
  · have hne : filepath.Ext f ≠ ".json" := by
      rw [(filepath.Ext_yaml f).2 hy]
      decide
    simp [CreateParser, hne, (filepath.Ext_yaml f).2 hy, NewYamlFileParser]
  · have hnj : filepath.Ext f ≠ ".json" := fun h => by
      rw [(filepath.Ext_json f).1 h] at hj
      cases hj
    have hny : filepath.Ext f ≠ ".yaml" := fun h => by
      rw [(filepath.Ext_yaml f).1 h] at hy
      cases hy
    refine ⟨fun hr => ?_, fun hr => ?_⟩
    · simp [CreateParser, hnj, hny, hr, NewJsonRecordParser]
    · have hnone : CreateParser f record = none := by simp [CreateParser, hnj, hny, hr]
      exact ⟨hnone, fun host services heap => by simp [Initialize, hnone]⟩

/-- The parsers of the tests of the package, and a file that is neither JSON nor YAML with
no record: no parser, and `Initialize` ends in a run-time error. -/
theorem CreateParser_selects_by_extension_witness :
    CreateParser "./test_config.json" "" = some (.jsonFile { filepath := "./test_config.json" }) ∧
    CreateParser "./test_config.yaml" "" = some (.yamlFile { filepath := "./test_config.yaml" }) ∧
    CreateParser "" "record" = some (.jsonRecord { content := "record" }) ∧
    CreateParser "config.txt" "" = none ∧
    (Initialize (hostDecoding NewServiceMap) GoMap.empty memoryHeap "config.txt" "").result
      = .panics nilDereference :=
  ⟨(CreateParser_selects_by_extension "./test_config.json" "").1 (by decide),
    (CreateParser_selects_by_extension "./test_config.yaml" "").2.1 (by decide),
    ((CreateParser_selects_by_extension "" "record").2.2 (by decide) (by decide)).1
      (by decide),
    (((CreateParser_selects_by_extension "config.txt" "").2.2 (by decide) (by decide)).2
      rfl).1,
    by
      rw [(((CreateParser_selects_by_extension "config.txt" "").2.2 (by decide)
        (by decide)).2 rfl).2]⟩

end DataReceiver
